import Mathlib

/-!
Verification development for the cortex-ai processing and insight-generation
pipeline.  The definitions shallowly embed the two Lambda handler modules
`src/infra/lambda/process/index.ts` and `src/infra/lambda/insights/index.ts`:
pure computations are translated to Lean functions, JavaScript exceptions to
`Except String`, and calls to external collaborators (S3, DynamoDB, EventBridge,
Bedrock) to explicit environment/oracle parameters.  Timestamps (Date.now and
ISO strings, which order identically) are modelled as natural numbers.
-/

namespace CortexAI

/-- JSON values as produced by JSON.parse.  Numbers are modelled as rationals
(JavaScript float formatting of non-integers is outside the model; every
number a claim touches is integral or a short decimal).  Object fields are the
parsed object's key/value entries in order, keys unique after JSON.parse. -/
inductive Json where
  | jnull
  | jbool (b : Bool)
  | jnum (q : ℚ)
  | jstr (s : String)
  | jarr (items : List Json)
  | jobj (fields : List (String × Json))
deriving Repr

/-- JavaScript truthiness of a parsed JSON value (undefined is conflated with
null: the code only distinguishes them through truthiness). -/
def truthy : Json → Bool
  | .jnull => false
  | .jbool b => b
  | .jnum q => q != 0
  | .jstr s => s != ""
  | .jarr _ => true
  | .jobj _ => true

/-- Property access `v.key` / `v[key]`: throws a TypeError when the receiver is
null, yields the field value on objects, and undefined (modelled `jnull`)
otherwise.  String index access never occurs with the field names the code
uses. -/
def getField (v : Json) (key : String) : Except String Json :=
  match v with
  | .jnull => .error ("TypeError: Cannot read properties of null (reading " ++ key ++ ")")
  | .jobj fields => .ok ((fields.lookup key).getD .jnull)
  | _ => .ok .jnull

/-- Object.keys: throws on null, field names for objects, index strings for
arrays and strings, empty for other primitives. -/
def jsKeys : Json → Except String (List String)
  | .jnull => .error "TypeError: Cannot convert undefined or null to object"
  | .jobj fields => .ok (fields.map Prod.fst)
  | .jarr items => .ok ((List.range items.length).map toString)
  | .jstr s => .ok ((List.range s.length).map toString)
  | _ => .ok []

/-- Total field access used where the receiver is known to be non-null
(values already produced by a successful JSON.parse of an object). -/
def jgetD (v : Json) (k : String) : Json :=
  match v with
  | .jobj fields => (fields.lookup k).getD .jnull
  | _ => .jnull

mutual

/-- Structural equality on JSON values, standing in for the SameValueZero
comparison of the JS Set used for category deduplication (reference identity
of distinct object literals is approximated by structural equality; no claim
depends on categories). -/
def Json.beq : Json → Json → Bool
  | .jnull, .jnull => true
  | .jbool a, .jbool b => a == b
  | .jnum a, .jnum b => a == b
  | .jstr a, .jstr b => a == b
  | .jarr a, .jarr b => itemsBeq a b
  | .jobj a, .jobj b => fieldsBeq a b
  | _, _ => false

def itemsBeq : List Json → List Json → Bool
  | [], [] => true
  | a :: as, b :: bs => Json.beq a b && itemsBeq as bs
  | _, _ => false

def fieldsBeq : List (String × Json) → List (String × Json) → Bool
  | [], [] => true
  | (k, v) :: as, (k2, v2) :: bs => k == k2 && Json.beq v v2 && fieldsBeq as bs
  | _, _ => false

end

/-- String escaping of JSON.stringify for the characters that occur in the
payloads the claims touch (double quote, backslash, and common control
characters; other control characters, which JSON.stringify escapes as unicode
sequences, are mapped to themselves). -/
def jsonEscapeChar (c : Char) : String :=
  if c = '"' then "\\\""
  else if c = '\\' then "\\\\"
  else if c = '\n' then "\\n"
  else if c = '\t' then "\\t"
  else if c = '\r' then "\\r"
  else String.singleton c

def jsonEscape (s : String) : String :=
  String.join (s.toList.map jsonEscapeChar)

/-- Rendering of a JSON number.  Integral values render as in JavaScript;
non-integral values (float formatting) are outside the model and rendered as
rationals.  No claim depends on a non-integral rendering. -/
def jsNumToString (q : ℚ) : String :=
  if q.den = 1 then toString q.num else toString q

mutual

/-- JSON.stringify restricted to parsed-JSON inputs (no undefined, functions
or cycles). -/
def Json.stringify : Json → String
  | .jnull => "null"
  | .jbool b => cond b "true" "false"
  | .jnum q => jsNumToString q
  | .jstr s => "\"" ++ jsonEscape s ++ "\""
  | .jarr items => "[" ++ stringifyItems items ++ "]"
  | .jobj fields => "\x7b" ++ stringifyFields fields ++ "\x7d"

def stringifyItems : List Json → String
  | [] => ""
  | [x] => Json.stringify x
  | x :: y :: rest => Json.stringify x ++ "," ++ stringifyItems (y :: rest)

def stringifyFields : List (String × Json) → String
  | [] => ""
  | [(k, v)] => "\"" ++ jsonEscape k ++ "\":" ++ Json.stringify v
  | (k, v) :: y :: rest =>
      "\"" ++ jsonEscape k ++ "\":" ++ Json.stringify v ++ "," ++ stringifyFields (y :: rest)

end

/-! ## Processing Stage (src/infra/lambda/process/index.ts) -/

/-- Mirrors calculateMissingFieldsPenalty (process/index.ts:214-222).  The
field accesses throw iff the item is null; the code only reaches that case for
a non-array null payload, since truthiness guards the array sample. -/
def calculateMissingFieldsPenalty (item : Json) : Except String Nat := do
  let idV ← getField item "id"
  let nameV ← getField item "name"
  let titleV ← getField item "title"
  let keys ← jsKeys item
  let p1 : Nat := if !truthy idV && !truthy nameV && !truthy titleV then 10 else 0
  let p2 : Nat := if keys.length = 0 then 20 else 0
  pure (p1 + p2)

/-- Mirrors calculateQualityScore (process/index.ts:195-212).  `data[0]` of an
empty array is undefined and hence falsy, so an empty array incurs no
sample-item penalty. -/
def calculateQualityScore (data : Json) : Except String Int :=
  match data with
  | .jarr items => do
      let base : Int := 100 - (if items.length = 0 then 20 else 0)
        - (if items.length > 1000 then 10 else 0)
      match items.head? with
      | some sample =>
          if truthy sample then do
            let p ← calculateMissingFieldsPenalty sample
            pure (max 0 (base - (p : Int)))
          else pure (max 0 base)
      | none => pure (max 0 base)
  | _ => do
      let p ← calculateMissingFieldsPenalty data
      pure (max 0 ((100 : Int) - (p : Int)))

/-- Short-circuiting `data.some(item => truthy item[key])`. -/
def anyTruthyField : List Json → String → Except String Bool
  | [], _ => .ok false
  | it :: rest, key => do
      let v ← getField it key
      if truthy v then pure true else anyTruthyField rest key

/-- Numeric value used by the amount reduction; a truthy non-numeric amount
would coerce the JS sum to a string, which is outside the model (no claim
touches totalAmount). -/
def numVal : Json → ℚ
  | .jnum q => q
  | _ => 0

/-- Mirrors `data.reduce((sum, item) => sum + (item[k] || 0), 0)`. -/
def sumFieldJS : List Json → String → ℚ → Except String ℚ
  | [], _, acc => .ok acc
  | it :: rest, key, acc => do
      let v ← getField it key
      sumFieldJS rest key (acc + (if truthy v then numVal v else 0))

/-- Mirrors `data.map(item => item[key])`. -/
def mapFieldVals : List Json → String → Except String (List Json)
  | [], _ => .ok []
  | it :: rest, key => do
      let v ← getField it key
      let vs ← mapFieldVals rest key
      pure (v :: vs)

/-- First-occurrence deduplication, as `[...new Set(xs)]`. -/
def dedupKeepFirst (seen : List Json) : List Json → List Json
  | [] => []
  | x :: rest =>
      if seen.any (fun y => Json.beq y x) then dedupKeepFirst seen rest
      else x :: dedupKeepFirst (x :: seen) rest

/-- Exactly the keys the processData function (process/index.ts:162-193) may
put into its result record: recordCount and extractedFields always, the rest
only when the corresponding sample field is truthy.  It never sets
validationStatus. -/
structure PDResults where
  recordCount : Nat
  extractedFields : List String
  hasEmail : Option Bool := none
  hasPhone : Option Bool := none
  totalAmount : Option ℚ := none
  categories : Option (List Json) := none
  errorCount : Option Nat := none
deriving Repr

/-- The optional pattern-detection metrics of processData. -/
structure PDExtras where
  hasEmail : Option Bool := none
  hasPhone : Option Bool := none
  totalAmount : Option ℚ := none
  categories : Option (List Json) := none
  errorCount : Option Nat := none
deriving Repr

/-- The `if (Array.isArray(data) && data.length > 0)` pattern-detection block
of processData (process/index.ts:170-190): each metric is computed only when
the corresponding field of the first element is truthy. -/
def processDataExtras (data : Json) : Except String PDExtras :=
  match data with
  | .jarr (sample :: rest) => do
      let items := sample :: rest
      let emailV ← getField sample "email"
      let hasEmail ← if truthy emailV then do
          pure (some (← anyTruthyField items "email"))
        else pure none
      let phoneV ← getField sample "phone"
      let hasPhone ← if truthy phoneV then do
          pure (some (← anyTruthyField items "phone"))
        else pure none
      let amountV ← getField sample "amount"
      let priceV ← getField sample "price"
      let totalAmount ← if truthy amountV || truthy priceV then do
          let amountField := if truthy amountV then "amount" else "price"
          pure (some (← sumFieldJS items amountField 0))
        else pure none
      let categoryV ← getField sample "category"
      let categories ← if truthy categoryV then do
          let vals ← mapFieldVals items "category"
          pure (some (dedupKeepFirst [] (vals.filter truthy)))
        else pure none
      let levelV ← getField sample "level"
      let errorCount ← if truthy levelV then do
          let lvls ← mapFieldVals items "level"
          pure (some ((lvls.filter (fun v => match v with
            | .jstr s => s == "error" | _ => false)).length))
        else pure none
      pure { hasEmail, hasPhone, totalAmount, categories, errorCount }
  | _ => pure {}

/-- Mirrors processData (process/index.ts:162-193): recordCount and
extractedFields always, the pattern-detection extras on non-empty arrays. -/
def processData (data : Json) : Except String PDResults := do
  let recordCount : Nat := match data with | .jarr items => items.length | _ => 1
  let extractedFields ← match data with
    | .jarr (first :: _) => jsKeys first
    | d => jsKeys d
  let extras ← processDataExtras data
  pure { recordCount, extractedFields, hasEmail := extras.hasEmail,
         hasPhone := extras.hasPhone, totalAmount := extras.totalAmount,
         categories := extras.categories, errorCount := extras.errorCount }

/-- The processingResults struct persisted by the process handler
(process/index.ts:78-85). -/
structure ProcessingResults where
  recordCount : Nat
  dataSize : Nat
  validationStatus : String
  extractedFields : List String
  qualityScore : Int
  hasEmail : Option Bool := none
  hasPhone : Option Bool := none
  totalAmount : Option ℚ := none
  categories : Option (List Json) := none
  errorCount : Option Nat := none
deriving Repr

/-- Assembly of processingResults in the process handler (process/index.ts
lines 65-85): the literal fields recordCount, dataSize, validationStatus,
`Object.keys(data)` and qualityScore, then `...processingResults` spread last,
so processData's recordCount and extractedFields override the literal ones
(recordCount by the identical value). -/
def buildProcessingResults (data : Json) : Except String ProcessingResults := do
  let pd ← processData data
  let dataSize := (Json.stringify data).utf8ByteSize
  let _baseRecordCount : Nat := match data with | .jarr items => items.length | _ => 1
  let _baseExtractedFields ← jsKeys data
  let qualityScore ← calculateQualityScore data
  pure { recordCount := pd.recordCount
         dataSize := dataSize
         validationStatus := "VALID"
         extractedFields := pd.extractedFields
         qualityScore := qualityScore
         hasEmail := pd.hasEmail
         hasPhone := pd.hasPhone
         totalAmount := pd.totalAmount
         categories := pd.categories
         errorCount := pd.errorCount }

/-- Structured AI insights.  Field values are kept as JSON because the
JavaScript code performs no type checks when extracting them from the model
response. -/
structure AIInsights where
  summary : Json
  keyInsights : Json
  recommendations : Json
  riskFactors : Json
  opportunities : Json
  dataQualityNotes : Json
  modelUsed : Json
  confidence : Json
deriving Repr

/-- One entry of the on-demand insight history (insights/index.ts:263-268). -/
structure InsightEntry where
  timestamp : Nat
  userId : String
  prompt : String
  response : String
deriving Repr, DecidableEq

/-- A DynamoDB record of the data table, with the fields the two handlers
read or write.  A missing insights attribute is modelled as the empty list
(the code reads `fileRecord.insights || []`). -/
structure DataRecord where
  tenantId : String
  dataId : String
  s3Key : Option String
  timestamp : Option Nat
  status : String
  processedAt : Option Nat
  processingResults : Option ProcessingResults
  processingError : Option String
  aiInsights : Option AIInsights
  insightsError : Option String
  insightsGeneratedAt : Option Nat
  insights : List InsightEntry
  lastInsightAt : Option Nat
  metadata : Option Json
  ttl : Option Nat
deriving Repr

/-- Outcomes of the external calls the process handler makes.  `s3Object` is
the parsed payload of the fetched object (none: the object is missing or has
no body, which the handler turns into a thrown error).  The Bool fields tell
whether the corresponding AWS call succeeds or throws. -/
structure ProcessEnv where
  s3Object : Option Json
  updateOk : Bool
  emitOk : Bool
  enableAIInsights : Bool
  failureUpdateOk : Bool
deriving Repr

/-- Mirrors the process handler (process/index.ts:43-160) acting on the
record addressed by the event: fetch, compute and persist processingResults
with status PROCESSED, then (when AI insights are enabled) emit the
DataProcessed event; the surrounding catch sets status PROCESSING_FAILED and
processingError on ANY thrown error — including one thrown by the event
emission after a successful persist — and re-throws.  The catch's own update
failure is swallowed.  Returns the final record state and the handler
outcome. -/
def processHandler (env : ProcessEnv) (record : DataRecord) (now : Nat) :
    DataRecord × Except String Unit :=
  let attempt : DataRecord × Except String Unit :=
    match env.s3Object with
    | none => (record, .error "No data found in S3 object")
    | some data =>
      match buildProcessingResults data with
      | .error e => (record, .error e)
      | .ok results =>
        if env.updateOk then
          let record1 := { record with
                           status := "PROCESSED",
                           processedAt := some now,
                           processingResults := some results }
          if env.enableAIInsights && !env.emitOk then
            (record1, .error "EventBridge put failed")
          else (record1, .ok ())
        else (record, .error "DynamoDB update failed")
  match attempt with
  | (r, .ok _) => (r, .ok ())
  | (r, .error e) =>
      let r2 := if env.failureUpdateOk
        then { r with
               status := "PROCESSING_FAILED",
               processingError := some e,
               processedAt := some now }
        else r
      (r2, .error e)

/-! ## Insight Generation Stage (src/infra/lambda/insights/index.ts) -/

/-- JavaScript `v || d` on parsed JSON values. -/
def jsOr (v d : Json) : Json := if truthy v then v else d

/-- Mirrors parseAIResponse (insights/index.ts:513-545).  The regex
extraction of a brace-delimited substring plus JSON.parse — both external
library operations on the free-text model output — are modelled by the
`parsed?` oracle argument: `some p` is the object the extracted JSON parses
to, `none` means no match was found or JSON.parse threw.  Each field is
`parsed.field || default`, so absent or falsy fields get the default while any
truthy value, of whatever shape, is kept. -/
def parseAIResponse (content : String) (parsed? : Option Json) : AIInsights :=
  match parsed? with
  | some parsed =>
      { summary := jsOr (jgetD parsed "summary") (.jstr "AI analysis completed")
        keyInsights := jsOr (jgetD parsed "keyInsights")
          (.jarr [.jstr "Analysis completed successfully"])
        recommendations := jsOr (jgetD parsed "recommendations")
          (.jarr [.jstr "Review the data for business opportunities"])
        riskFactors := jsOr (jgetD parsed "riskFactors")
          (.jarr [.jstr "No immediate risks identified"])
        opportunities := jsOr (jgetD parsed "opportunities")
          (.jarr [.jstr "Data analysis reveals potential for optimization"])
        dataQualityNotes := jsOr (jgetD parsed "dataQualityNotes")
          (.jarr [.jstr "Data quality assessment completed"])
        modelUsed := jsOr (jgetD parsed "modelUsed")
          (.jstr "anthropic.claude-3-sonnet-20240229-v1:0")
        confidence := jsOr (jgetD parsed "confidence") (.jnum (4/5)) }
  | none =>
      { summary := .jstr ((content.take 200) ++ "...")
        keyInsights := .jarr [.jstr "AI analysis completed",
          .jstr "Review the full response for details"]
        recommendations := .jarr [.jstr "Consider the AI-generated insights for decision making"]
        riskFactors := .jarr [.jstr "No specific risks identified in the analysis"]
        opportunities := .jarr [.jstr "Data analysis provides insights for business optimization"]
        dataQualityNotes := .jarr [.jstr "AI analysis completed successfully"]
        modelUsed := .jstr "anthropic.claude-3-sonnet-20240229-v1:0"
        confidence := .jnum (7/10) }

/-- Rendering of `qualityScore || 'Unknown'`: a zero score is falsy in JS and
renders as Unknown. -/
def qualityScoreText (q : Int) : String :=
  if q = 0 then "Unknown" else toString q

/-- Mirrors generateFallbackInsights (insights/index.ts:547-581), the
rule-based fallback used when the Bedrock call of the event path throws.  The
data argument of the source function is unused there as well. -/
def generateFallbackInsights (_data : Json) (pr : ProcessingResults) : AIInsights :=
  { summary := .jstr ("Fallback analysis for data with " ++ toString pr.recordCount
      ++ " records")
    keyInsights := .jarr [
      .jstr ("Data contains " ++ toString pr.recordCount ++ " records"),
      .jstr ("Data quality score: " ++ qualityScoreText pr.qualityScore),
      .jstr ("Data size: " ++ jsNumToString ((pr.dataSize : ℚ) / 1024) ++ " KB")]
    recommendations := .jarr [
      .jstr "Review data quality and completeness",
      .jstr "Consider implementing data validation rules",
      .jstr "Monitor data processing performance"]
    riskFactors := .jarr [
      .jstr "Fallback analysis used due to AI service unavailability",
      .jstr "Limited insight depth compared to AI analysis"]
    opportunities := .jarr [
      .jstr "Implement automated data quality checks",
      .jstr "Set up regular data processing monitoring",
      .jstr "Consider data enrichment strategies"]
    dataQualityNotes := .jarr [
      .jstr ("Quality score: " ++ qualityScoreText pr.qualityScore),
      .jstr ("Fields extracted: " ++ String.intercalate ", " pr.extractedFields)]
    modelUsed := .jstr "fallback-rule-based"
    confidence := .jnum (3/5) }

/-- External-call outcomes for one event-path invocation.  The Bedrock oracle
is `none` when InvokeModel throws, `some (content, parsed?)` when it returns
response text `content` whose brace-extraction + JSON.parse yields
`parsed?`. -/
structure EventEnv where
  s3Object : Option Json
  bedrock : Option (String × Option Json)
  updateOk : Bool
  catchUpdateOk : Bool
deriving Repr

/-- Mirrors the event path: handleEventBridgeEvent (insights/index.ts:329-372)
together with generateAIInsights (427-473) and the top-level catch of the
handler (78-97), which on any thrown error records insightsError and
insightsGeneratedAt — leaving status untouched — and re-throws.  A Bedrock
failure is caught inside generateAIInsights and replaced by the rule-based
fallback, so it never reaches the catch. -/
def handleEventBridge (env : EventEnv) (eventResults : ProcessingResults)
    (rec : DataRecord) (now : Nat) : DataRecord × Except String Unit :=
  let attempt : DataRecord × Except String Unit :=
    match env.s3Object with
    | none => (rec, .error "No data found in S3 object")
    | some data =>
      let insights : AIInsights :=
        match env.bedrock with
        | some (content, parsed?) => parseAIResponse content parsed?
        | none => generateFallbackInsights data eventResults
      if env.updateOk then
        ({ rec with
           aiInsights := some insights,
           insightsGeneratedAt := some now,
           status := "INSIGHTS_GENERATED" }, .ok ())
      else (rec, .error "DynamoDB update failed")
  match attempt with
  | (r, .ok _) => (r, .ok ())
  | (r, .error e) =>
      let r2 := if env.catchUpdateOk
        then { r with
               insightsError := some e,
               insightsGeneratedAt := some now }
        else r
      (r2, .error e)

/-! ## On-demand query path and rate limiter (insights/index.ts:101-327) -/

def RATE_LIMIT_MAX_CALLS : Nat := 6

def RATE_LIMIT_WINDOW_MS : Nat := 60000

/-- One entry of the in-memory rateLimitStore (insights/index.ts:102). -/
structure RateBucket where
  count : Nat
  resetTime : Nat
deriving Repr, DecidableEq

inductive RateDecision where
  | allowed
  | rejected (secondsUntilReset : Nat)
deriving Repr, DecidableEq

/-- Mirrors the rate-limit check (insights/index.ts:149-187): fixed window per
user.  Returns the decision and the bucket afterwards (unchanged on a
rejection; the store itself is updated by the caller only on an allowed
call, exactly as the code mutates the map). -/
def checkRateLimit (bucket? : Option RateBucket) (now : Nat) :
    RateDecision × RateBucket :=
  match bucket? with
  | some b =>
      if now < b.resetTime then
        if b.count ≥ RATE_LIMIT_MAX_CALLS then
          (.rejected ((b.resetTime - now + 999) / 1000), b)
        else (.allowed, { b with count := b.count + 1 })
      else (.allowed, { count := 1, resetTime := now + RATE_LIMIT_WINDOW_MS })
  | none => (.allowed, { count := 1, resetTime := now + RATE_LIMIT_WINDOW_MS })

/-- A sequence of calls of one user through the rate limiter, at the given
times, starting from the given bucket state. -/
def runCalls (bucket? : Option RateBucket) : List Nat → List RateDecision × Option RateBucket
  | [] => ([], bucket?)
  | t :: ts =>
      let (d, b) := checkRateLimit bucket? t
      let (ds, bf) := runCalls (some b) ts
      (d :: ds, bf)

def MAX_INSIGHTS : Nat := 10

/-- Mirrors `[...existingInsights, insightRecord].slice(-MAX_INSIGHTS)`
(insights/index.ts:275): append at the tail, keep the most recent 10. -/
def appendCapped (history : List InsightEntry) (e : InsightEntry) : List InsightEntry :=
  let l := history ++ [e]
  l.drop (l.length - MAX_INSIGHTS)

/-- JavaScript truthiness of an optional string (query parameters and record
fields): an empty string behaves like an absent one. -/
def presentStr : Option String → Option String
  | some s => if s = "" then none else some s
  | none => none

/-- Display of `(fileRecord.processingResults || {}).recordCount || 0`. -/
def recordCountDisplay : Option ProcessingResults → Nat
  | none => 0
  | some pr => pr.recordCount

/-- Display of `(fileRecord.processingResults || {}).qualityScore || 'Unknown'`. -/
def qualityScoreDisplay : Option ProcessingResults → String
  | none => "Unknown"
  | some pr => qualityScoreText pr.qualityScore

/-- The deterministic fallback string of generateAdditionalInsights
(insights/index.ts:423). -/
def fallbackResponse (pr : Option ProcessingResults) (prompt? : Option String) : String :=
  "Analysis completed with fallback method. " ++
  (match prompt? with
   | some p => "Question: " ++ p
   | none => "General analysis") ++
  " - Data contains " ++ toString (recordCountDisplay pr) ++
  " records with quality score of " ++ qualityScoreDisplay pr ++
  ". Consider reviewing the data for business opportunities and potential improvements."

/-- Mirrors generateAdditionalInsights (insights/index.ts:374-425).  The
Bedrock call on the constructed prompt is modelled by the `inference` oracle
(`some text`: the model responds with `text`; `none`: the call throws and the
catch returns the fallback string). -/
def generateAdditionalInsights (_data : Json) (pr : Option ProcessingResults)
    (prompt? : Option String) (inference : Option String) : String :=
  match inference with
  | some text => text
  | none => fallbackResponse pr prompt?

/-- One on-demand request: the query parameters, the rate-limit identity
resolved from the Cognito claims, the invocation time, and the outcomes of
the external calls made on its behalf. -/
structure ApiRequest where
  dataId : Option String
  prompt : Option String
  userId : String
  now : Nat
  inference : Option String
  updateOk : Bool
deriving Repr

/-- The state an on-demand request reads and writes: the in-memory rate-limit
store, the DynamoDB table, and the S3 bucket of parsed payloads. -/
structure SysState where
  rateStore : List (String × RateBucket)
  table : List DataRecord
  s3 : List (String × Json)

/-- The observable API Gateway responses (status code and claim-relevant body
fields). -/
inductive ApiResponse where
  | ok (insights : String) (insightHistory : List InsightEntry)
  | badRequest (msg : String)
  | notFound (msg : String)
  | rateLimited (retryAfter : Nat)
  | serverError (msg : String)
deriving Repr, DecidableEq

def storeSet : List (String × RateBucket) → String → RateBucket →
    List (String × RateBucket)
  | [], u, b => [(u, b)]
  | (k, v) :: rest, u, b =>
      if k = u then (u, b) :: rest else (k, v) :: storeSet rest u b

/-- DynamoDB update keyed by (tenantId, dataId): replaces the matching item
(upsert when absent, which the on-demand path never hits since the record was
just found). -/
def putRecord : List DataRecord → DataRecord → List DataRecord
  | [], r => [r]
  | x :: xs, r =>
      if x.tenantId = r.tenantId ∧ x.dataId = r.dataId then r :: xs
      else x :: putRecord xs r

/-- Stages of handleApiGatewayRequest after validation and rate limiting
(insights/index.ts:189-309): scan for the record by dataId (Limit 1 — the
first match), fetch the payload by its s3Key (a missing object makes
GetObject throw, surfacing as a 500 through the surrounding catch; stored
objects always have a body, so the explicit 404 branch for a body-less
response is unreachable), generate the insight text, append it to the capped
history, persist insights and lastInsightAt, and return the text with the
full updated history. -/
def onDemandLookup (st : SysState) (req : ApiRequest) (dataId : String)
    (prompt? : Option String) : ApiResponse × SysState :=
  match st.table.find? (fun r => r.dataId == dataId) with
  | none => (.notFound "File not found", st)
  | some rec =>
    match presentStr rec.s3Key with
    | none => (.badRequest "No S3 key found for this file", st)
    | some key =>
      match st.s3.lookup key with
      | none => (.serverError "S3 GetObject failed", st)
      | some data =>
        let insights := generateAdditionalInsights data rec.processingResults
          prompt? req.inference
        let entry : InsightEntry :=
          { timestamp := req.now, userId := req.userId,
            prompt := prompt?.getD "General insights", response := insights }
        let updated := appendCapped rec.insights entry
        if req.updateOk then
          let rec2 := { rec with insights := updated, lastInsightAt := some req.now }
          (.ok insights updated, { st with table := putRecord st.table rec2 })
        else (.serverError "DynamoDB update failed", st)

/-- Rate-limit gate of the on-demand path: on rejection nothing is written;
on an allowed call the user's bucket is created/reset/incremented before any
further work. -/
def onDemandRateLimited (st : SysState) (req : ApiRequest) (dataId : String)
    (prompt? : Option String) : ApiResponse × SysState :=
  match checkRateLimit (st.rateStore.lookup req.userId) req.now with
  | (.rejected s, _) => (.rateLimited s, st)
  | (.allowed, bucket) =>
      onDemandLookup { st with rateStore := storeSet st.rateStore req.userId bucket }
        req dataId prompt?

/-- Mirrors handleApiGatewayRequest (insights/index.ts:106-327): reject a
missing/empty dataId, then a prompt longer than 100 characters, then rate
limit, then look up and serve.  String length is code-point length; the
claims exercise no surrogate-pair inputs. -/
def handleApiGateway (st : SysState) (req : ApiRequest) : ApiResponse × SysState :=
  match presentStr req.dataId with
  | none => (.badRequest "Missing required parameter: dataId", st)
  | some dataId =>
    match presentStr req.prompt with
    | some p =>
        if p.length > 100 then
          (.badRequest "Prompt is too long. Maximum length is 100 characters.", st)
        else onDemandRateLimited st req dataId (some p)
    | none => onDemandRateLimited st req dataId none

/-- A sequence of on-demand requests served by one warm process. -/
def runApi (st : SysState) : List ApiRequest → SysState
  | [] => st
  | r :: rs => runApi (handleApiGateway st r).2 rs

/-! ## Claim-side definition for C4 (refinement comparison) -/

/-- Record count exactly as claim C4 words it: array length, or 1 for a
non-array payload. -/
def specRecordCount (data : Json) : Nat :=
  match data with | .jarr items => items.length | _ => 1

/-- Sampled item as claim C4 words it: first array element, or the object
itself for a non-array payload. -/
def sampledItem (data : Json) : Option Json :=
  match data with | .jarr items => items.head? | v => some v

/-- Field possession as the claim's words read: the sampled item has the
field when it is an object with that key present. -/
def specHasField (item : Json) (k : String) : Bool :=
  match item with | .jobj fields => (fields.lookup k).isSome | _ => false

def specFieldCount (item : Json) : Nat :=
  match item with | .jobj fields => fields.length | _ => 0

/-- The quality-score formula exactly as claim C4 states it, written from the
claim's words for comparison against calculateQualityScore: start at 100,
deduct 20 if the record count is zero, 10 if it exceeds 1000, 10 if the
sampled item lacks all of id, name and title, 20 if the sampled item has zero
fields; floor at 0. -/
def specQualityScoreC4 (data : Json) : Int :=
  let d1 : Int := if specRecordCount data = 0 then 20 else 0
  let d2 : Int := if specRecordCount data > 1000 then 10 else 0
  let d3 : Int := match sampledItem data with
    | some it =>
        (if !(specHasField it "id") && !(specHasField it "name")
            && !(specHasField it "title") then 10 else 0)
        + (if specFieldCount it = 0 then 20 else 0)
    | none => 0
  max 0 (100 - d1 - d2 - d3)

/-! ## Concrete states and payloads used by the claim theorems -/

def scenarioPayload : Json := .jarr [
  .jobj [("name", .jstr "A"), ("amount", .jnum 10)],
  .jobj [("name", .jstr "B"), ("amount", .jnum 20)]]

def sampleC10Results : ProcessingResults :=
  { recordCount := 1, dataSize := 12, validationStatus := "VALID",
    extractedFields := ["name"], qualityScore := 100 }

def scenarioPD : PDResults :=
  { recordCount := 2, extractedFields := ["name", "amount"],
    totalAmount := some (0 + 10 + 20) }

def envC3 : ProcessEnv :=
  { s3Object := some (.jobj [("name", .jstr "A")]), updateOk := true, emitOk := false,
    enableAIInsights := true, failureUpdateOk := true }

def recC3 : DataRecord :=
  { tenantId := "t1", dataId := "d1", s3Key := some "t1/d1.json", timestamp := some 0,
    status := "UPLOADED", processedAt := none, processingResults := none,
    processingError := none, aiInsights := none, insightsError := none,
    insightsGeneratedAt := none, insights := [], lastInsightAt := none,
    metadata := none, ttl := none }

def envC7 : EventEnv :=
  { s3Object := some (.jarr []),
    bedrock := some ("\x7b\"keyInsights\":[]\x7d", some (.jobj [("keyInsights", .jarr [])])),
    updateOk := true, catchUpdateOk := true }

def insightsOrdered (l : List InsightEntry) : Prop :=
  List.Pairwise (fun a b => a.timestamp ≤ b.timestamp) l

def tableInv (t : Nat) (st : SysState) : Prop :=
  ∀ rec ∈ st.table, rec.insights.length ≤ MAX_INSIGHTS ∧ insightsOrdered rec.insights ∧
    ∀ e ∈ rec.insights, e.timestamp ≤ t

def timesMono : Nat → List ApiRequest → Prop
  | _, [] => True
  | t, r :: rs => t ≤ r.now ∧ timesMono r.now rs

def payloadW : Json := .jarr [.jobj [("name", .jstr "A")]]

def prW : ProcessingResults :=
  { recordCount := 1, dataSize := 14, validationStatus := "VALID",
    extractedFields := ["name"], qualityScore := 100 }

def recW : DataRecord :=
  { tenantId := "t1", dataId := "d1", s3Key := some "t1/d1.json", timestamp := some 0,
    status := "PROCESSED", processedAt := some 50, processingResults := some prW,
    processingError := none, aiInsights := none, insightsError := none,
    insightsGeneratedAt := none, insights := [], lastInsightAt := none,
    metadata := none, ttl := none }

def stW : SysState :=
  { rateStore := [], table := [recW], s3 := [("t1/d1.json", payloadW)] }

def reqW : ApiRequest :=
  { dataId := some "d1", prompt := some "total?", userId := "u1", now := 1000,
    inference := none, updateOk := true }

def insW : String := fallbackResponse (some prW) (some "total?")

def entryW : InsightEntry :=
  { timestamp := 1000, userId := "u1", prompt := "total?", response := insW }

def recW2 : DataRecord := { recW with insights := [entryW], lastInsightAt := some 1000 }

def stW2 : SysState :=
  { rateStore := [("u1", ⟨1, 61000⟩)], table := [recW2], s3 := stW.s3 }

def envC9 : EventEnv :=
  { s3Object := none, bedrock := none, updateOk := true, catchUpdateOk := true }

def longPromptW : String := String.mk (List.replicate 101 'a')

def stRateW : SysState :=
  { rateStore := [("u1", ⟨6, 50000⟩)], table := [], s3 := [] }

def reqRateW : ApiRequest :=
  { dataId := some "d1", prompt := none, userId := "u1", now := 30000,
    inference := none, updateOk := true }

/-! ## Helper lemmas and claim theorems -/

theorem checkRateLimit_fresh (now : Nat) :
    checkRateLimit none now = (.allowed, ⟨1, now + 60000⟩) := rfl

theorem checkRateLimit_expired (k r now : Nat) (h : r ≤ now) :
    checkRateLimit (some ⟨k, r⟩) now = (.allowed, ⟨1, now + 60000⟩) := by
  simp [checkRateLimit, RATE_LIMIT_WINDOW_MS, Nat.not_lt.mpr h]

theorem checkRateLimit_incr (k r now : Nat) (h1 : now < r) (h2 : k < 6) :
    checkRateLimit (some ⟨k, r⟩) now = (.allowed, ⟨k + 1, r⟩) := by
  simp [checkRateLimit, h1, RATE_LIMIT_MAX_CALLS, Nat.not_le.mpr h2]

theorem checkRateLimit_reject (k r now : Nat) (h1 : now < r) (h2 : 6 ≤ k) :
    checkRateLimit (some ⟨k, r⟩) now = (.rejected ((r - now + 999) / 1000), ⟨k, r⟩) := by
  simp [checkRateLimit, h1, RATE_LIMIT_MAX_CALLS, h2]


theorem calculateMissingFieldsPenalty_le_30 (item : Json) (p : Nat)
    (h : calculateMissingFieldsPenalty item = .ok p) : p ≤ 30 := by
  cases item <;>
    simp only [calculateMissingFieldsPenalty, getField, jsKeys, bind, Except.bind,
      pure, Except.pure, Except.ok.injEq, reduceCtorEq] at h <;>
    split_ifs at h <;> omega

theorem calculateQualityScore_range (data : Json) (n : Int)
    (h : calculateQualityScore data = .ok n) : 60 ≤ n ∧ n ≤ 100 := by
  match data with
  | .jarr [] =>
      simp only [calculateQualityScore, List.head?] at h
      simp only [List.length_nil, pure, Except.pure, Except.ok.injEq] at h
      omega
  | .jarr (x :: xs) =>
      simp only [calculateQualityScore, List.head?] at h
      by_cases ht : truthy x
      · rw [if_pos ht] at h
        cases hp : calculateMissingFieldsPenalty x with
        | error e => rw [hp] at h; simp [bind, Except.bind] at h
        | ok p =>
            have hple := calculateMissingFieldsPenalty_le_30 x p hp
            rw [hp] at h
            simp only [bind, Except.bind, pure, Except.pure, Except.ok.injEq] at h
            simp only [List.length_cons] at h
            split_ifs at h <;> first | contradiction | omega
      · rw [if_neg ht] at h
        simp only [pure, Except.pure, Except.ok.injEq, List.length_cons] at h
        split_ifs at h <;> first | contradiction | omega
  | .jnull => simp [calculateQualityScore, calculateMissingFieldsPenalty, getField,
      bind, Except.bind] at h
  | .jbool b =>
      simp only [calculateQualityScore, calculateMissingFieldsPenalty, getField, jsKeys,
        bind, Except.bind, pure, Except.pure, Except.ok.injEq] at h
      split_ifs at h <;> omega
  | .jnum q =>
      simp only [calculateQualityScore, calculateMissingFieldsPenalty, getField, jsKeys,
        bind, Except.bind, pure, Except.pure, Except.ok.injEq] at h
      split_ifs at h <;> omega
  | .jstr s =>
      simp only [calculateQualityScore, calculateMissingFieldsPenalty, getField, jsKeys,
        bind, Except.bind, pure, Except.pure, Except.ok.injEq] at h
      split_ifs at h <;> omega
  | .jobj fields =>
      simp only [calculateQualityScore, calculateMissingFieldsPenalty, getField, jsKeys,
        bind, Except.bind, pure, Except.pure, Except.ok.injEq] at h
      split_ifs at h <;> omega

theorem jgetD_truthy_penalty_zero (x : Json) (k : String)
    (hk : k = "id" ∨ k = "name" ∨ k = "title") (ht : truthy (jgetD x k) = true) :
    calculateMissingFieldsPenalty x = .ok 0 := by
  match x with
  | .jnull => simp [jgetD, truthy] at ht
  | .jbool b => simp [jgetD, truthy] at ht
  | .jnum q => simp [jgetD, truthy] at ht
  | .jstr s => simp [jgetD, truthy] at ht
  | .jarr items => simp [jgetD, truthy] at ht
  | .jobj fields =>
      simp only [jgetD] at ht
      have hne : fields ≠ [] := by
        intro hnil
        rw [hnil] at ht
        simp [truthy] at ht
      have hlen : fields.length ≠ 0 := fun h0 => hne (List.length_eq_zero.mp h0)
      have honetruthy : truthy (jgetD (.jobj fields) "id") = true ∨
          truthy (jgetD (.jobj fields) "name") = true ∨
          truthy (jgetD (.jobj fields) "title") = true := by
        rcases hk with h | h | h <;> subst h <;> simp [jgetD, ht]
      simp only [calculateMissingFieldsPenalty, getField, jsKeys, bind, Except.bind,
        pure, Except.pure]
      have : ¬(!truthy ((fields.lookup "id").getD .jnull)
          && !truthy ((fields.lookup "name").getD .jnull)
          && !truthy ((fields.lookup "title").getD .jnull)) = true := by
        simp only [jgetD] at honetruthy
        rcases honetruthy with h | h | h <;> simp [h]
      rw [if_neg this, if_neg (by simpa [List.length_map] using hlen)]

theorem truthy_ne_jnull (x : Json) (ht : truthy x = true) : x ≠ .jnull := by
  intro he
  rw [he] at ht
  simp [truthy] at ht

theorem keys_nil_penalty_30 (x : Json) (hn : x ≠ .jnull)
    (hk : jsKeys x = .ok []) : calculateMissingFieldsPenalty x = .ok 30 := by
  match x with
  | .jnull => exact absurd rfl hn
  | .jbool b =>
      simp [calculateMissingFieldsPenalty, getField, jsKeys, bind, Except.bind,
        pure, Except.pure, truthy]
  | .jnum q =>
      simp [calculateMissingFieldsPenalty, getField, jsKeys, bind, Except.bind,
        pure, Except.pure, truthy]
  | .jstr s =>
      simp only [jsKeys, Except.ok.injEq] at hk
      have hlen : s.length = 0 := by
        have : List.range s.length = [] := by simpa using hk
        exact List.range_eq_nil.mp this
      have hs : s = "" := by
        cases s with
        | mk d =>
            simp only [String.length] at hlen
            have : d = [] := List.length_eq_zero.mp hlen
            simp [this]
      subst hs
      rfl
  | .jarr items =>
      simp only [jsKeys, Except.ok.injEq] at hk
      simp [calculateMissingFieldsPenalty, getField, jsKeys, bind, Except.bind,
        pure, Except.pure, truthy, hk]
  | .jobj fields =>
      simp only [jsKeys, Except.ok.injEq] at hk
      have : fields = [] := by
        cases fields with
        | nil => rfl
        | cons a as => simp at hk
      subst this
      simp [calculateMissingFieldsPenalty, getField, jsKeys, bind, Except.bind,
        pure, Except.pure, truthy]

/-- C4 amended: qualityScore is always in [60, 100] (hence in [0, 100]); an
empty array scores 80; a non-empty array of at most 1000 records whose sampled
first element has a truthy id, name or title scores 100 (strictly more than
empty); a truthy sampled first element with zero keys scores 70 (strictly less
than empty); a FALSY sampled first element incurs no sample deductions (score
100) — but that truthiness guard applies only to the array sample: a non-array
payload incurs the field deductions unconditionally, so a non-array payload
with a truthy id, name or title scores 100, a non-null non-array payload with
zero keys — falsy ones such as `false` included — scores 70, and a null
payload throws a TypeError. -/
theorem quality_score_c4_amended :
    (∀ (data : Json) (n : Int), calculateQualityScore data = .ok n → 60 ≤ n ∧ n ≤ 100) ∧
    calculateQualityScore (.jarr []) = .ok 80 ∧
    (∀ (x : Json) (xs : List Json), xs.length + 1 ≤ 1000 →
      (truthy (jgetD x "id") = true ∨ truthy (jgetD x "name") = true ∨
        truthy (jgetD x "title") = true) →
      calculateQualityScore (.jarr (x :: xs)) = .ok 100) ∧
    (∀ (x : Json) (xs : List Json), truthy x = true → jsKeys x = .ok [] →
      xs.length + 1 ≤ 1000 →
      calculateQualityScore (.jarr (x :: xs)) = .ok 70) ∧
    (∀ (x : Json) (xs : List Json), truthy x = false → xs.length + 1 ≤ 1000 →
      calculateQualityScore (.jarr (x :: xs)) = .ok 100) ∧
    (∀ data : Json, (∀ items, data ≠ .jarr items) →
      (truthy (jgetD data "id") = true ∨ truthy (jgetD data "name") = true ∨
        truthy (jgetD data "title") = true) →
      calculateQualityScore data = .ok 100) ∧
    (∀ data : Json, (∀ items, data ≠ .jarr items) → data ≠ .jnull →
      jsKeys data = .ok [] → calculateQualityScore data = .ok 70) ∧
    calculateQualityScore .jnull =
      .error "TypeError: Cannot read properties of null (reading id)" := by
  refine ⟨calculateQualityScore_range, rfl, ?_, ?_, ?_, ?_, ?_, rfl⟩
  · intro x xs hlen hdis
    have htx : truthy x = true := by
      rcases hdis with h | h | h <;> (cases x <;> simp [jgetD, truthy] at h ⊢)
    have hp : calculateMissingFieldsPenalty x = .ok 0 := by
      rcases hdis with h | h | h
      · exact jgetD_truthy_penalty_zero x "id" (Or.inl rfl) h
      · exact jgetD_truthy_penalty_zero x "name" (Or.inr (Or.inl rfl)) h
      · exact jgetD_truthy_penalty_zero x "title" (Or.inr (Or.inr rfl)) h
    simp only [calculateQualityScore, List.head?, htx, if_true, hp, bind, Except.bind,
      pure, Except.pure, List.length_cons, Except.ok.injEq]
    rw [if_neg (by omega), if_neg (by omega)]
    norm_num
  · intro x xs htx hkeys hlen
    have hp := keys_nil_penalty_30 x (truthy_ne_jnull x htx) hkeys
    simp only [calculateQualityScore, List.head?, htx, if_true, hp, bind, Except.bind,
      pure, Except.pure, List.length_cons, Except.ok.injEq]
    rw [if_neg (by omega), if_neg (by omega)]
    norm_num
  · intro x xs htx hlen
    simp only [calculateQualityScore, List.head?, htx, if_false, Bool.false_eq_true,
      pure, Except.pure, List.length_cons, Except.ok.injEq]
    rw [if_neg (by omega), if_neg (by omega)]
    norm_num
  · intro data h0 hdis
    match data with
    | .jarr items => exact absurd rfl (h0 items)
    | .jnull => rcases hdis with h | h | h <;> simp [jgetD, truthy] at h
    | .jbool b => rcases hdis with h | h | h <;> simp [jgetD, truthy] at h
    | .jnum q => rcases hdis with h | h | h <;> simp [jgetD, truthy] at h
    | .jstr s => rcases hdis with h | h | h <;> simp [jgetD, truthy] at h
    | .jobj fields =>
        have hp : calculateMissingFieldsPenalty (.jobj fields) = .ok 0 := by
          rcases hdis with h | h | h
          · exact jgetD_truthy_penalty_zero _ "id" (Or.inl rfl) h
          · exact jgetD_truthy_penalty_zero _ "name" (Or.inr (Or.inl rfl)) h
          · exact jgetD_truthy_penalty_zero _ "title" (Or.inr (Or.inr rfl)) h
        simp only [calculateQualityScore, hp, bind, Except.bind, pure, Except.pure,
          Except.ok.injEq]
        norm_num
  · intro data h0 hnn hk
    have hp : calculateMissingFieldsPenalty data = .ok 30 := keys_nil_penalty_30 data hnn hk
    match data with
    | .jarr items => exact absurd rfl (h0 items)
    | .jnull => exact absurd rfl hnn
    | .jbool b =>
        simp only [calculateQualityScore, hp, bind, Except.bind, pure, Except.pure,
          Except.ok.injEq]
        norm_num
    | .jnum q =>
        simp only [calculateQualityScore, hp, bind, Except.bind, pure, Except.pure,
          Except.ok.injEq]
        norm_num
    | .jstr s =>
        simp only [calculateQualityScore, hp, bind, Except.bind, pure, Except.pure,
          Except.ok.injEq]
        norm_num
    | .jobj fields =>
        simp only [calculateQualityScore, hp, bind, Except.bind, pure, Except.pure,
          Except.ok.injEq]
        norm_num

/-- C4 counterexample: the empty payload scores 80 while the non-empty
payload [ {} ] with identical (empty) field coverage scores 70, so an empty
payload scores strictly MORE, not strictly less; and on [false] the claim
formula yields 70 while the code yields 100, because the code skips all
sample deductions for a falsy sampled item. -/
theorem quality_score_c4_counterexample :
    calculateQualityScore (.jarr []) = .ok 80 ∧
    calculateQualityScore (.jarr [.jobj []]) = .ok 70 ∧
    processData (.jarr []) = .ok { recordCount := 0, extractedFields := [] } ∧
    processData (.jarr [.jobj []]) = .ok { recordCount := 1, extractedFields := [] } ∧
    (70 : Int) < 80 ∧
    specQualityScoreC4 (.jarr [.jbool false]) = 70 ∧
    calculateQualityScore (.jarr [.jbool false]) = .ok 100 := by
  refine ⟨?_, ?_, ?_, ?_, by norm_num, ?_, ?_⟩ <;> rfl

/-- C4 witness: the amended quality-score facts instantiated at concrete
payloads. -/
theorem quality_score_c4_witness :
    (60 ≤ (80 : Int) ∧ (80 : Int) ≤ 100) ∧
    calculateQualityScore (.jarr [.jobj [("name", .jstr "A")], .jobj []]) = .ok 100 ∧
    calculateQualityScore (.jarr [.jobj [], .jobj [("name", .jstr "A")]]) = .ok 70 ∧
    calculateQualityScore (.jarr [.jbool false]) = .ok 100 ∧
    calculateQualityScore (.jobj [("name", .jstr "A")]) = .ok 100 ∧
    calculateQualityScore (.jbool false) = .ok 70 :=
  ⟨quality_score_c4_amended.1 (.jarr []) 80 quality_score_c4_amended.2.1,
   quality_score_c4_amended.2.2.1 (.jobj [("name", .jstr "A")]) [.jobj []]
     (by norm_num) (Or.inr (Or.inl rfl)),
   quality_score_c4_amended.2.2.2.1 (.jobj []) [.jobj [("name", .jstr "A")]]
     rfl rfl (by norm_num),
   quality_score_c4_amended.2.2.2.2.1 (.jbool false) [] rfl (by norm_num),
   quality_score_c4_amended.2.2.2.2.2.1 (.jobj [("name", .jstr "A")])
     (by intro items h; exact Json.noConfusion h) (Or.inr (Or.inl rfl)),
   quality_score_c4_amended.2.2.2.2.2.2.1 (.jbool false)
     (by intro items h; exact Json.noConfusion h)
     (by intro h; exact Json.noConfusion h) rfl⟩

/-- C10: every successfully computed processingResults record has
validationStatus equal to VALID; no payload ever produces INVALID, since the
literal VALID is never overridden by the processData spread. -/
theorem validation_status_c10 (data : Json) (pr : ProcessingResults)
    (h : buildProcessingResults data = .ok pr) : pr.validationStatus = "VALID" := by
  unfold buildProcessingResults at h
  cases h1 : processData data with
  | error e => rw [h1] at h; simp [bind, Except.bind] at h
  | ok pd =>
      rw [h1] at h
      simp only [bind, Except.bind] at h
      cases h2 : jsKeys data with
      | error e => rw [h2] at h; simp [bind, Except.bind] at h
      | ok ks =>
          rw [h2] at h
          simp only [bind, Except.bind] at h
          cases h3 : calculateQualityScore data with
          | error e => rw [h3] at h; simp [bind, Except.bind] at h
          | ok q =>
              rw [h3] at h
              simp only [bind, Except.bind, pure, Except.pure, Except.ok.injEq] at h
              rw [← h]

/-- C10 witness: the persisted results of a concrete payload, with
validationStatus VALID. -/
theorem validation_status_c10_witness :
    buildProcessingResults (.jobj [("name", .jstr "A")]) = .ok sampleC10Results ∧
    sampleC10Results.validationStatus = "VALID" :=
  ⟨rfl, validation_status_c10 (.jobj [("name", .jstr "A")]) sampleC10Results rfl⟩

/-- C5: processData computes recordCount as the array length (or 1 for a
non-array payload) and extractedFields as the keys of the first array element
(or of the payload itself); the persisted processingResults carry those
values together with dataSize, the byte size of the serialized payload; and
the scenario payload of two name/amount records yields recordCount 2,
extractedFields (name, amount) and qualityScore 100. -/
theorem processing_metrics_c5 :
    (∀ (x : Json) (xs : List Json) (pd : PDResults),
      processData (.jarr (x :: xs)) = .ok pd →
      pd.recordCount = xs.length + 1 ∧ jsKeys x = .ok pd.extractedFields) ∧
    (∀ (data : Json) (pd : PDResults), (∀ items, data ≠ .jarr items) →
      processData data = .ok pd →
      pd.recordCount = 1 ∧ jsKeys data = .ok pd.extractedFields) ∧
    (∀ (data : Json) (pr : ProcessingResults), buildProcessingResults data = .ok pr →
      pr.dataSize = (Json.stringify data).utf8ByteSize ∧
      ∃ pd, processData data = .ok pd ∧ pd.recordCount = pr.recordCount ∧
        pd.extractedFields = pr.extractedFields) ∧
    (buildProcessingResults scenarioPayload).map
        (fun pr => (pr.recordCount, pr.extractedFields, pr.qualityScore, pr.validationStatus))
      = .ok (2, ["name", "amount"], 100, "VALID") := by
  refine ⟨?_, ?_, ?_, rfl⟩
  · intro x xs pd h
    unfold processData at h
    simp only [bind, Except.bind] at h
    cases h1 : jsKeys x with
    | error e => rw [h1] at h; simp [bind, Except.bind] at h
    | ok ks =>
        rw [h1] at h
        simp only [bind, Except.bind] at h
        cases h2 : processDataExtras (.jarr (x :: xs)) with
        | error e => rw [h2] at h; simp [bind, Except.bind] at h
        | ok ex =>
            rw [h2] at h
            simp only [bind, Except.bind, pure, Except.pure, Except.ok.injEq] at h
            subst h
            exact ⟨by simp, by simp [h1]⟩
  · intro data pd h0 h
    unfold processData at h
    simp only [bind, Except.bind] at h
    match data with
    | .jarr items => exact absurd rfl (h0 items)
    | .jnull => simp [jsKeys, bind, Except.bind] at h
    | .jbool b =>
        simp only [jsKeys, bind, Except.bind, processDataExtras, pure, Except.pure,
          Except.ok.injEq] at h
        exact ⟨by rw [← h], by rw [← h]; rfl⟩
    | .jnum q =>
        simp only [jsKeys, bind, Except.bind, processDataExtras, pure, Except.pure,
          Except.ok.injEq] at h
        exact ⟨by rw [← h], by rw [← h]; rfl⟩
    | .jstr s =>
        simp only [jsKeys, bind, Except.bind, processDataExtras, pure, Except.pure,
          Except.ok.injEq] at h
        exact ⟨by rw [← h], by rw [← h]; rfl⟩
    | .jobj fields =>
        simp only [jsKeys, bind, Except.bind, processDataExtras, pure, Except.pure,
          Except.ok.injEq] at h
        exact ⟨by rw [← h], by rw [← h]; rfl⟩
  · intro data pr h
    unfold buildProcessingResults at h
    cases h1 : processData data with
    | error e => rw [h1] at h; simp [bind, Except.bind] at h
    | ok pd =>
        rw [h1] at h
        simp only [bind, Except.bind] at h
        cases h2 : jsKeys data with
        | error e => rw [h2] at h; simp [bind, Except.bind] at h
        | ok ks =>
            rw [h2] at h
            simp only [bind, Except.bind] at h
            cases h3 : calculateQualityScore data with
            | error e => rw [h3] at h; simp [bind, Except.bind] at h
            | ok q =>
                rw [h3] at h
                simp only [bind, Except.bind, pure, Except.pure, Except.ok.injEq] at h
                exact ⟨by rw [← h], pd, rfl, by rw [← h], by rw [← h]⟩

/-- C5 witness: the metric shape instantiated at the scenario payload. -/
theorem processing_metrics_c5_witness :
    (scenarioPD.recordCount = 1 + 1 ∧
      jsKeys (.jobj [("name", .jstr "A"), ("amount", .jnum 10)]) =
        .ok scenarioPD.extractedFields) ∧
    (buildProcessingResults scenarioPayload).map
        (fun pr => (pr.recordCount, pr.extractedFields, pr.qualityScore, pr.validationStatus))
      = .ok (2, ["name", "amount"], 100, "VALID") := by
  constructor
  · have := processing_metrics_c5.1 (.jobj [("name", .jstr "A"), ("amount", .jnum 10)])
      [.jobj [("name", .jstr "B"), ("amount", .jnum 20)]] scenarioPD rfl
    simpa using this
  · exact processing_metrics_c5.2.2.2

/-- C3 counterexample: with a successful persist and a failing EventBridge
emission, the process handler marks the record PROCESSING_FAILED even though
its processing completed and its processingResults were persisted in the same
invocation, so a failure can leave a record whose successfully completed work
is reported as failed; this refutes the claim as stated. -/
theorem process_failure_c3_counterexample :
    (processHandler envC3 recC3 100).1.status = "PROCESSING_FAILED" ∧
    (processHandler envC3 recC3 100).1.processingResults = some sampleC10Results ∧
    (processHandler envC3 recC3 100).2 = .error "EventBridge put failed" :=
  ⟨rfl, rfl, rfl⟩

/-- C3 amended: any exception in the process handler sets
status = PROCESSING_FAILED, records the message in processingError and
re-throws, without rolling back already-written fields, whenever the
failure-status write itself succeeds — but this applies to exceptions after
the persistence step as well (event emission), so a record whose work was
persisted can still be reported as failed; on full success the record is
PROCESSED with its results. -/
theorem process_failure_c3_amended :
    (∀ (env : ProcessEnv) (rec : DataRecord) (now : Nat),
      env.s3Object = none → env.failureUpdateOk = true →
      processHandler env rec now =
        ({ rec with
           status := "PROCESSING_FAILED",
           processingError := some "No data found in S3 object",
           processedAt := some now }, .error "No data found in S3 object")) ∧
    (∀ (env : ProcessEnv) (rec : DataRecord) (now : Nat) (data : Json) (e : String),
      env.s3Object = some data → buildProcessingResults data = .error e →
      env.failureUpdateOk = true →
      processHandler env rec now =
        ({ rec with
           status := "PROCESSING_FAILED", processingError := some e,
           processedAt := some now }, .error e)) ∧
    (∀ (env : ProcessEnv) (rec : DataRecord) (now : Nat) (data : Json)
        (results : ProcessingResults),
      env.s3Object = some data → buildProcessingResults data = .ok results →
      env.updateOk = false → env.failureUpdateOk = true →
      processHandler env rec now =
        ({ rec with
           status := "PROCESSING_FAILED",
           processingError := some "DynamoDB update failed",
           processedAt := some now }, .error "DynamoDB update failed")) ∧
    (∀ (env : ProcessEnv) (rec : DataRecord) (now : Nat) (data : Json)
        (results : ProcessingResults),
      env.s3Object = some data → buildProcessingResults data = .ok results →
      env.updateOk = true → (env.enableAIInsights = false ∨ env.emitOk = true) →
      processHandler env rec now =
        ({ rec with
           status := "PROCESSED", processedAt := some now,
           processingResults := some results }, .ok ())) ∧
    (∀ (env : ProcessEnv) (rec : DataRecord) (now : Nat) (data : Json)
        (results : ProcessingResults),
      env.s3Object = some data → buildProcessingResults data = .ok results →
      env.updateOk = true → env.enableAIInsights = true → env.emitOk = false →
      env.failureUpdateOk = true →
      processHandler env rec now =
        ({ rec with
           status := "PROCESSING_FAILED",
           processingError := some "EventBridge put failed",
           processedAt := some now,
           processingResults := some results }, .error "EventBridge put failed")) := by
  refine ⟨?_, ?_, ?_, ?_, ?_⟩
  · intro env rec now h1 h2
    simp [processHandler, h1, h2]
  · intro env rec now data e h1 h2 h3
    simp [processHandler, h1, h2, h3]
  · intro env rec now data results h1 h2 h3 h4
    simp [processHandler, h1, h2, h3, h4]
  · intro env rec now data results h1 h2 h3 h4
    rcases h4 with h4 | h4 <;> simp [processHandler, h1, h2, h3, h4]
  · intro env rec now data results h1 h2 h3 h4 h5 h6
    simp [processHandler, h1, h2, h3, h4, h5, h6]

/-- C3 witness: the amended characterization instantiated at the concrete
emit-failure environment. -/
theorem process_failure_c3_witness :
    processHandler envC3 recC3 100 =
      ({ recC3 with
         status := "PROCESSING_FAILED",
         processingError := some "EventBridge put failed",
         processedAt := some 100,
         processingResults := some sampleC10Results }, .error "EventBridge put failed") :=
  process_failure_c3_amended.2.2.2.2 envC3 recC3 100 (.jobj [("name", .jstr "A")])
    sampleC10Results rfl rfl rfl rfl rfl rfl

theorem truthy_jstr (s : String) (h : s ≠ "") : truthy (.jstr s) = true := by
  simp [truthy, bne_iff_ne, h]

theorem truthy_jnum (q : ℚ) (h : q ≠ 0) : truthy (.jnum q) = true := by
  simp [truthy, bne_iff_ne, h]

theorem jsOr_truthy (v d : Json) (hd : truthy d = true) : truthy (jsOr v d) = true := by
  by_cases hv : truthy v <;> simp [jsOr, hv, hd]

theorem string_append_dots_ne_empty (s : String) : s ++ "..." ≠ "" := by
  intro h
  have hl := congrArg String.length h
  rw [String.length_append] at hl
  rw [show ("..." : String).length = 3 from rfl,
      show ("" : String).length = 0 from rfl] at hl
  omega

/-- C7 counterexample: an inference response whose extracted JSON is
exactly the object with keyInsights bound to the empty array is parsed into
an AIInsights whose keyInsights field IS the empty array (a truthy value is
kept whatever its shape), and the event path persists it; this refutes the
claim that no field of the persisted AIInsights is ever empty. -/
theorem ai_insights_c7_counterexample :
    (parseAIResponse "\x7b\"keyInsights\":[]\x7d"
        (some (.jobj [("keyInsights", .jarr [])]))).keyInsights = .jarr [] ∧
    (∃ r : AIInsights, (handleEventBridge envC7 sampleC10Results recC3 100).1.aiInsights
        = some r ∧ r.keyInsights = .jarr []) ∧
    (handleEventBridge envC7 sampleC10Results recC3 100).1.status = "INSIGHTS_GENERATED" :=
  ⟨rfl,
   ⟨parseAIResponse "\x7b\"keyInsights\":[]\x7d" (some (.jobj [("keyInsights", .jarr [])])),
    rfl, rfl⟩,
   rfl⟩

/-- C7 amended: every field of a parsed AIInsights is truthy (never
undefined, null, an empty string or zero); an absent or falsy field is
replaced by its documented default, while any truthy value — including an
empty array — is kept, so sequence fields can be empty; when no JSON object
can be extracted, a fixed structure is used whose summary is the first 200
characters of the response plus an ellipsis and whose confidence is 0.7; and
when the inference call itself fails, the rule-based fallback depends only on
the processing metrics, with modelUsed fallback-rule-based and confidence
exactly 0.6. -/
theorem ai_insights_c7_amended :
    (∀ (content : String) (parsed? : Option Json),
      truthy (parseAIResponse content parsed?).summary = true ∧
      truthy (parseAIResponse content parsed?).keyInsights = true ∧
      truthy (parseAIResponse content parsed?).recommendations = true ∧
      truthy (parseAIResponse content parsed?).riskFactors = true ∧
      truthy (parseAIResponse content parsed?).opportunities = true ∧
      truthy (parseAIResponse content parsed?).dataQualityNotes = true ∧
      truthy (parseAIResponse content parsed?).modelUsed = true ∧
      truthy (parseAIResponse content parsed?).confidence = true) ∧
    (∀ (content : String) (p : Json),
      (truthy (jgetD p "summary") = false →
        (parseAIResponse content (some p)).summary = .jstr "AI analysis completed") ∧
      (truthy (jgetD p "keyInsights") = false →
        (parseAIResponse content (some p)).keyInsights =
          .jarr [.jstr "Analysis completed successfully"]) ∧
      (truthy (jgetD p "recommendations") = false →
        (parseAIResponse content (some p)).recommendations =
          .jarr [.jstr "Review the data for business opportunities"]) ∧
      (truthy (jgetD p "riskFactors") = false →
        (parseAIResponse content (some p)).riskFactors =
          .jarr [.jstr "No immediate risks identified"]) ∧
      (truthy (jgetD p "opportunities") = false →
        (parseAIResponse content (some p)).opportunities =
          .jarr [.jstr "Data analysis reveals potential for optimization"]) ∧
      (truthy (jgetD p "dataQualityNotes") = false →
        (parseAIResponse content (some p)).dataQualityNotes =
          .jarr [.jstr "Data quality assessment completed"]) ∧
      (truthy (jgetD p "modelUsed") = false →
        (parseAIResponse content (some p)).modelUsed =
          .jstr "anthropic.claude-3-sonnet-20240229-v1:0") ∧
      (truthy (jgetD p "confidence") = false →
        (parseAIResponse content (some p)).confidence = .jnum (4/5))) ∧
    (∀ (content : String) (p : Json),
      (truthy (jgetD p "summary") = true →
        (parseAIResponse content (some p)).summary = jgetD p "summary") ∧
      (truthy (jgetD p "keyInsights") = true →
        (parseAIResponse content (some p)).keyInsights = jgetD p "keyInsights") ∧
      (truthy (jgetD p "recommendations") = true →
        (parseAIResponse content (some p)).recommendations = jgetD p "recommendations") ∧
      (truthy (jgetD p "riskFactors") = true →
        (parseAIResponse content (some p)).riskFactors = jgetD p "riskFactors") ∧
      (truthy (jgetD p "opportunities") = true →
        (parseAIResponse content (some p)).opportunities = jgetD p "opportunities") ∧
      (truthy (jgetD p "dataQualityNotes") = true →
        (parseAIResponse content (some p)).dataQualityNotes = jgetD p "dataQualityNotes") ∧
      (truthy (jgetD p "modelUsed") = true →
        (parseAIResponse content (some p)).modelUsed = jgetD p "modelUsed") ∧
      (truthy (jgetD p "confidence") = true →
        (parseAIResponse content (some p)).confidence = jgetD p "confidence")) ∧
    (∀ content : String, (parseAIResponse content none).summary =
        .jstr (content.take 200 ++ "...") ∧
      (parseAIResponse content none).confidence = .jnum (7/10)) ∧
    (∀ (d d' : Json) (pr : ProcessingResults),
      generateFallbackInsights d pr = generateFallbackInsights d' pr ∧
      (generateFallbackInsights d pr).confidence = .jnum (3/5) ∧
      (generateFallbackInsights d pr).modelUsed = .jstr "fallback-rule-based") := by
  refine ⟨?_, ?_, ?_, ?_, ?_⟩
  · intro content parsed?
    match parsed? with
    | some p =>
        refine ⟨?_, ?_, ?_, ?_, ?_, ?_, ?_, ?_⟩ <;>
          simp only [parseAIResponse] <;>
          apply jsOr_truthy
        · rfl
        · rfl
        · rfl
        · rfl
        · rfl
        · rfl
        · rfl
        · exact truthy_jnum (4/5) (by norm_num)
    | none =>
        refine ⟨?_, rfl, rfl, rfl, rfl, rfl, rfl, ?_⟩
        · exact truthy_jstr _ (string_append_dots_ne_empty _)
        · exact truthy_jnum (7/10) (by norm_num)
  · intro content p
    refine ⟨?_, ?_, ?_, ?_, ?_, ?_, ?_, ?_⟩ <;> intro h <;>
      simp [parseAIResponse, jsOr, h]
  · intro content p
    refine ⟨?_, ?_, ?_, ?_, ?_, ?_, ?_, ?_⟩ <;> intro h <;>
      simp [parseAIResponse, jsOr, h]
  · intro content
    exact ⟨rfl, rfl⟩
  · intro d d' pr
    exact ⟨rfl, rfl, rfl⟩

/-- C7 witness: the parsing defaults, retention and fallback facts
instantiated at concrete responses. -/
theorem ai_insights_c7_witness :
    truthy (parseAIResponse "no json here" none).summary = true ∧
    (parseAIResponse "x" (some (.jobj []))).keyInsights =
      .jarr [.jstr "Analysis completed successfully"] ∧
    (parseAIResponse "x" (some (.jobj [("keyInsights", .jarr [])]))).keyInsights =
      jgetD (.jobj [("keyInsights", .jarr [])]) "keyInsights" ∧
    (parseAIResponse "no json here" none).confidence = .jnum (7/10) ∧
    (generateFallbackInsights (.jarr []) sampleC10Results).confidence = .jnum (3/5) :=
  ⟨(ai_insights_c7_amended.1 "no json here" none).1,
   (ai_insights_c7_amended.2.1 "x" (.jobj [])).2.1 rfl,
   (ai_insights_c7_amended.2.2.1 "x" (.jobj [("keyInsights", .jarr [])])).2.1 rfl,
   (ai_insights_c7_amended.2.2.2.1 "no json here").2,
   (ai_insights_c7_amended.2.2.2.2 (.jarr []) (.jarr []) sampleC10Results).2.1⟩

theorem onDemandLookup_ok_inversion (st : SysState) (req : ApiRequest) (dataId : String)
    (prompt? : Option String) (ins : String) (hist : List InsightEntry) (st' : SysState)
    (h : onDemandLookup st req dataId prompt? = (.ok ins hist, st')) :
    ∃ rec key data,
      st.table.find? (fun r => r.dataId == dataId) = some rec ∧
      presentStr rec.s3Key = some key ∧
      st.s3.lookup key = some data ∧
      req.updateOk = true ∧
      ins = generateAdditionalInsights data rec.processingResults prompt? req.inference ∧
      hist = appendCapped rec.insights
        { timestamp := req.now, userId := req.userId,
          prompt := prompt?.getD "General insights", response := ins } ∧
      st' = { st with
              table := putRecord st.table
                { rec with insights := hist, lastInsightAt := some req.now } } := by
  unfold onDemandLookup at h
  split at h
  next hf => simp at h
  next rec hf =>
    split at h
    next hk => simp at h
    next key hk =>
      split at h
      next hd => simp at h
      next data hd =>
        split at h
        next hu =>
          simp only [Prod.mk.injEq, ApiResponse.ok.injEq] at h
          obtain ⟨⟨h1, h2⟩, h3⟩ := h
          subst h1
          subst h2
          subst h3
          exact ⟨rec, key, data, hf, hk, hd, hu, rfl, rfl, rfl⟩
        next hu => simp at h

theorem handleApiGateway_ok_inversion (st : SysState) (req : ApiRequest) (ins : String)
    (hist : List InsightEntry) (st' : SysState)
    (h : handleApiGateway st req = (.ok ins hist, st')) :
    ∃ dataId bucket rec key data,
      presentStr req.dataId = some dataId ∧
      checkRateLimit (st.rateStore.lookup req.userId) req.now = (.allowed, bucket) ∧
      st.table.find? (fun r => r.dataId == dataId) = some rec ∧
      presentStr rec.s3Key = some key ∧
      st.s3.lookup key = some data ∧
      req.updateOk = true ∧
      ins = generateAdditionalInsights data rec.processingResults (presentStr req.prompt)
        req.inference ∧
      hist = appendCapped rec.insights
        { timestamp := req.now, userId := req.userId,
          prompt := (presentStr req.prompt).getD "General insights", response := ins } ∧
      st' = { rateStore := storeSet st.rateStore req.userId bucket,
              table := putRecord st.table
                { rec with insights := hist, lastInsightAt := some req.now },
              s3 := st.s3 } := by
  unfold handleApiGateway at h
  split at h
  next hd => simp at h
  next dataId hd =>
    rw [hd]
    split at h
    next p hp =>
      rw [hp]
      split at h
      next hlen => simp at h
      next hlen =>
        unfold onDemandRateLimited at h
        split at h
        next s b hc => simp at h
        next b hc =>
          obtain ⟨rec, key, data, hf, hk, hdd, hu, h1, h2, h3⟩ :=
            onDemandLookup_ok_inversion _ req dataId (some p) ins hist st' h
          exact ⟨dataId, b, rec, key, data, rfl, hc, hf, hk, hdd, hu, h1, h2, h3⟩
    next hp =>
      rw [hp]
      unfold onDemandRateLimited at h
      split at h
      next s b hc => simp at h
      next b hc =>
        obtain ⟨rec, key, data, hf, hk, hdd, hu, h1, h2, h3⟩ :=
          onDemandLookup_ok_inversion _ req dataId none ins hist st' h
        exact ⟨dataId, b, rec, key, data, rfl, hc, hf, hk, hdd, hu, h1, h2, h3⟩

theorem onDemandLookup_state (st : SysState) (req : ApiRequest) (dataId : String)
    (prompt? : Option String) :
    (onDemandLookup st req dataId prompt?).2 = st ∨
    ∃ rec ins,
      rec ∈ st.table ∧
      (onDemandLookup st req dataId prompt?).2 = { st with
        table := putRecord st.table
          { rec with
            insights := appendCapped rec.insights
              { timestamp := req.now, userId := req.userId,
                prompt := prompt?.getD "General insights", response := ins },
            lastInsightAt := some req.now } } := by
  unfold onDemandLookup
  split
  next => left; rfl
  next rec hf =>
    split
    next => left; rfl
    next key hk =>
      split
      next => left; rfl
      next data hd =>
        split
        next hu =>
          right
          exact ⟨rec, _, List.mem_of_find?_eq_some hf, rfl⟩
        next hu => left; rfl

theorem handleApiGateway_table (st : SysState) (req : ApiRequest) :
    (handleApiGateway st req).2.table = st.table ∨
    ∃ rec ins,
      rec ∈ st.table ∧
      (handleApiGateway st req).2.table = putRecord st.table
        { rec with
          insights := appendCapped rec.insights
            { timestamp := req.now, userId := req.userId,
              prompt := (presentStr req.prompt).getD "General insights", response := ins },
          lastInsightAt := some req.now } := by
  unfold handleApiGateway
  split
  next => left; rfl
  next dataId hd =>
    split
    next p hp =>
      rw [hp]
      split
      next => left; rfl
      next hlen =>
        unfold onDemandRateLimited
        split
        next => left; rfl
        next b hc =>
          rcases onDemandLookup_state
              { st with rateStore := storeSet st.rateStore req.userId b }
              req dataId (some p) with he | ⟨rec, ins, hm, he⟩
          · left; rw [he]
          · right; exact ⟨rec, ins, hm, by rw [he]⟩
    next hp =>
      rw [hp]
      unfold onDemandRateLimited
      split
      next => left; rfl
      next b hc =>
        rcases onDemandLookup_state
            { st with rateStore := storeSet st.rateStore req.userId b }
            req dataId none with he | ⟨rec, ins, hm, he⟩
        · left; rw [he]
        · right; exact ⟨rec, ins, hm, by rw [he]⟩

theorem mem_putRecord {tbl : List DataRecord} {x r : DataRecord}
    (h : r ∈ putRecord tbl x) : r ∈ tbl ∨ r = x := by
  induction tbl with
  | nil =>
      unfold putRecord at h
      simp at h
      exact Or.inr h
  | cons a as ih =>
      unfold putRecord at h
      split at h
      · rcases List.mem_cons.mp h with h | h
        · exact Or.inr h
        · exact Or.inl (List.mem_cons_of_mem _ h)
      · rcases List.mem_cons.mp h with h | h
        · exact Or.inl (h ▸ List.mem_cons_self _ _)
        · rcases ih h with h | h
          · exact Or.inl (List.mem_cons_of_mem _ h)
          · exact Or.inr h

theorem appendCapped_eq_concat (l : List InsightEntry) (e : InsightEntry) :
    appendCapped l e = l.drop (l.length + 1 - MAX_INSIGHTS) ++ [e] := by
  unfold appendCapped
  rw [List.drop_append_eq_append_drop]
  rw [List.length_append]
  rw [show ([e] : List InsightEntry).length = 1 from rfl]
  rw [show l.length + 1 - MAX_INSIGHTS - l.length = 0 from by
    simp only [MAX_INSIGHTS]; omega]
  rw [List.drop_zero]

theorem appendCapped_length (l : List InsightEntry) (e : InsightEntry) :
    (appendCapped l e).length ≤ MAX_INSIGHTS := by
  unfold appendCapped
  rw [List.length_drop]
  omega

theorem appendCapped_getLast (l : List InsightEntry) (e : InsightEntry) :
    (appendCapped l e).getLast? = some e := by
  rw [appendCapped_eq_concat, List.getLast?_concat]

theorem appendCapped_mem (l : List InsightEntry) (e a : InsightEntry)
    (h : a ∈ appendCapped l e) : a ∈ l ∨ a = e := by
  rw [appendCapped_eq_concat] at h
  rcases List.mem_append.mp h with h | h
  · exact Or.inl (List.drop_subset _ _ h)
  · simp at h
    exact Or.inr h

theorem appendCapped_pairwise (l : List InsightEntry) (e : InsightEntry)
    (hp : List.Pairwise (fun a b => a.timestamp ≤ b.timestamp) l)
    (hb : ∀ a ∈ l, a.timestamp ≤ e.timestamp) :
    List.Pairwise (fun a b => a.timestamp ≤ b.timestamp) (appendCapped l e) := by
  rw [appendCapped_eq_concat]
  refine List.pairwise_append.mpr ⟨hp.sublist (List.drop_sublist _ _), by simp, ?_⟩
  intro a ha b hb'
  simp at hb'
  subst hb'
  exact hb a (List.drop_subset _ _ ha)

theorem step_tableInv (st : SysState) (req : ApiRequest) (t0 : Nat)
    (hinv : tableInv t0 st) (ht : t0 ≤ req.now) :
    tableInv req.now (handleApiGateway st req).2 := by
  intro rec hmem
  rcases handleApiGateway_table st req with he | ⟨rec0, ins, hm0, he⟩
  · rw [he] at hmem
    obtain ⟨h1, h2, h3⟩ := hinv rec hmem
    exact ⟨h1, h2, fun e he' => le_trans (h3 e he') ht⟩
  · rw [he] at hmem
    rcases mem_putRecord hmem with hold | hnew
    · obtain ⟨h1, h2, h3⟩ := hinv rec hold
      exact ⟨h1, h2, fun e he' => le_trans (h3 e he') ht⟩
    · subst hnew
      obtain ⟨h1, h2, h3⟩ := hinv rec0 hm0
      have hb : ∀ a ∈ rec0.insights, a.timestamp ≤ req.now :=
        fun a ha => le_trans (h3 a ha) ht
      refine ⟨appendCapped_length _ _, appendCapped_pairwise _ _ h2 hb, ?_⟩
      intro e he'
      rcases appendCapped_mem _ _ _ he' with h | h
      · exact le_trans (h3 e h) ht
      · subst h
        exact le_refl _

theorem runApi_inv (reqs : List ApiRequest) :
    ∀ (st : SysState) (t0 : Nat), tableInv t0 st → timesMono t0 reqs →
      ∀ rec ∈ (runApi st reqs).table,
        rec.insights.length ≤ MAX_INSIGHTS ∧ insightsOrdered rec.insights := by
  induction reqs with
  | nil =>
      intro st t0 hinv _ rec hmem
      obtain ⟨h1, h2, _⟩ := hinv rec hmem
      exact ⟨h1, h2⟩
  | cons r rs ih =>
      intro st t0 hinv hmono rec hmem
      exact ih (handleApiGateway st r).2 r.now (step_tableInv st r t0 hinv hmono.1)
        hmono.2 rec hmem

/-- C2: every successful on-demand query appends exactly one entry
(timestamp, userId, prompt or General insights, response) at the tail of the
found record insight history, truncates to the most recent 10, updates
lastInsightAt, and returns the response together with the full updated
history whose newest entry is that query entry; and over any run of requests
with monotone times from a state whose records satisfy the invariant, every
reachable record has insightHistory of length at most 10 ordered oldest to
newest. -/
theorem insight_history_c2 :
    (∀ (st : SysState) (req : ApiRequest) (ins : String) (hist : List InsightEntry)
        (st' : SysState), handleApiGateway st req = (.ok ins hist, st') →
      ∃ dataId rec,
        presentStr req.dataId = some dataId ∧
        st.table.find? (fun r => r.dataId == dataId) = some rec ∧
        hist = appendCapped rec.insights
          { timestamp := req.now, userId := req.userId,
            prompt := (presentStr req.prompt).getD "General insights", response := ins } ∧
        hist.length ≤ MAX_INSIGHTS ∧
        hist.getLast? = some
          { timestamp := req.now, userId := req.userId,
            prompt := (presentStr req.prompt).getD "General insights", response := ins } ∧
        st'.table = putRecord st.table
          { rec with insights := hist, lastInsightAt := some req.now }) ∧
    (∀ (reqs : List ApiRequest) (st : SysState) (t0 : Nat),
      tableInv t0 st → timesMono t0 reqs →
      ∀ rec ∈ (runApi st reqs).table,
        rec.insights.length ≤ MAX_INSIGHTS ∧ insightsOrdered rec.insights) := by
  constructor
  · intro st req ins hist st' h
    obtain ⟨dataId, bucket, rec, key, data, hd, hc, hf, hk, hdd, hu, h1, h2, h3⟩ :=
      handleApiGateway_ok_inversion st req ins hist st' h
    refine ⟨dataId, rec, hd, hf, h2, ?_, ?_, by rw [h3]⟩
    · rw [h2]
      exact appendCapped_length _ _
    · rw [h2]
      exact appendCapped_getLast _ _
  · exact fun reqs st t0 hinv hmono => runApi_inv reqs st t0 hinv hmono

/-- C2 witness: the append/truncate/return shape and the reachability
invariant instantiated on a concrete one-record system. -/
theorem insight_history_c2_witness :
    (∃ dataId rec,
      presentStr reqW.dataId = some dataId ∧
      stW.table.find? (fun r => r.dataId == dataId) = some rec ∧
      [entryW] = appendCapped rec.insights
        { timestamp := reqW.now, userId := reqW.userId,
          prompt := (presentStr reqW.prompt).getD "General insights", response := insW } ∧
      ([entryW] : List InsightEntry).length ≤ MAX_INSIGHTS ∧
      ([entryW] : List InsightEntry).getLast? = some
        { timestamp := reqW.now, userId := reqW.userId,
          prompt := (presentStr reqW.prompt).getD "General insights", response := insW } ∧
      stW2.table = putRecord stW.table
        { rec with insights := [entryW], lastInsightAt := some reqW.now }) ∧
    (∀ rec ∈ (runApi stW [reqW]).table,
      rec.insights.length ≤ MAX_INSIGHTS ∧ insightsOrdered rec.insights) :=
  ⟨insight_history_c2.1 stW reqW insW [entryW] stW2 rfl,
   insight_history_c2.2 [reqW] stW 0
     (by
       intro rec hmem
       simp only [stW, List.mem_singleton] at hmem
       subst hmem
       refine ⟨by norm_num [recW, MAX_INSIGHTS], ?_, ?_⟩
       · simp [insightsOrdered, recW]
       · simp [recW])
     (by exact ⟨by norm_num, trivial⟩)⟩

/-- C9: a successful on-demand query persists an update that changes only
the insights history and lastInsightAt of the found record — status,
processingResults, aiInsights, processingError and every other field are
unchanged — and leaves the S3 side untouched; and any failure of the
event-path insight generation before persistence records insightsError and
insightsGeneratedAt, leaves status unchanged and re-throws the error. -/
theorem status_frame_c9 :
    (∀ (st : SysState) (req : ApiRequest) (ins : String) (hist : List InsightEntry)
        (st' : SysState), handleApiGateway st req = (.ok ins hist, st') →
      ∃ dataId rec,
        presentStr req.dataId = some dataId ∧
        st.table.find? (fun r => r.dataId == dataId) = some rec ∧
        st'.table = putRecord st.table
          { rec with insights := hist, lastInsightAt := some req.now } ∧
        st'.s3 = st.s3 ∧
        ∀ rec2 : DataRecord,
          rec2 = { rec with insights := hist, lastInsightAt := some req.now } →
          rec2.status = rec.status ∧
          rec2.processingResults = rec.processingResults ∧
          rec2.aiInsights = rec.aiInsights ∧
          rec2.processingError = rec.processingError ∧
          rec2.insightsError = rec.insightsError ∧
          rec2.insightsGeneratedAt = rec.insightsGeneratedAt ∧
          rec2.tenantId = rec.tenantId ∧
          rec2.dataId = rec.dataId ∧
          rec2.s3Key = rec.s3Key ∧
          rec2.timestamp = rec.timestamp ∧
          rec2.processedAt = rec.processedAt ∧
          rec2.metadata = rec.metadata ∧
          rec2.ttl = rec.ttl ∧
          rec2.insights = hist ∧
          rec2.lastInsightAt = some req.now) ∧
    (∀ (env : EventEnv) (er : ProcessingResults) (rec : DataRecord) (now : Nat),
      env.s3Object = none → env.catchUpdateOk = true →
      handleEventBridge env er rec now =
        ({ rec with
           insightsError := some "No data found in S3 object",
           insightsGeneratedAt := some now }, .error "No data found in S3 object") ∧
      (handleEventBridge env er rec now).1.status = rec.status) ∧
    (∀ (env : EventEnv) (er : ProcessingResults) (rec : DataRecord) (now : Nat)
        (data : Json),
      env.s3Object = some data → env.updateOk = false → env.catchUpdateOk = true →
      handleEventBridge env er rec now =
        ({ rec with
           insightsError := some "DynamoDB update failed",
           insightsGeneratedAt := some now }, .error "DynamoDB update failed") ∧
      (handleEventBridge env er rec now).1.status = rec.status) := by
  refine ⟨?_, ?_, ?_⟩
  · intro st req ins hist st' h
    obtain ⟨dataId, bucket, rec, key, data, hd, hc, hf, hk, hdd, hu, h1, h2, h3⟩ :=
      handleApiGateway_ok_inversion st req ins hist st' h
    refine ⟨dataId, rec, hd, hf, by rw [h3], by rw [h3], ?_⟩
    intro rec2 he
    subst he
    exact ⟨rfl, rfl, rfl, rfl, rfl, rfl, rfl, rfl, rfl, rfl, rfl, rfl, rfl, rfl, rfl⟩
  · intro env er rec now h1 h2
    constructor
    · simp [handleEventBridge, h1, h2]
    · simp [handleEventBridge, h1, h2]
  · intro env er rec now data h1 h2 h3
    constructor
    · simp [handleEventBridge, h1, h2, h3]
    · simp [handleEventBridge, h1, h2, h3]

/-- C9 witness: the frame conditions instantiated on the concrete
one-record system and a concrete failing event environment. -/
theorem status_frame_c9_witness :
    (∃ dataId rec,
      presentStr reqW.dataId = some dataId ∧
      stW.table.find? (fun r => r.dataId == dataId) = some rec ∧
      stW2.table = putRecord stW.table
        { rec with insights := [entryW], lastInsightAt := some reqW.now } ∧
      stW2.s3 = stW.s3 ∧
      ∀ rec2 : DataRecord,
        rec2 = { rec with insights := [entryW], lastInsightAt := some reqW.now } →
        rec2.status = rec.status ∧
        rec2.processingResults = rec.processingResults ∧
        rec2.aiInsights = rec.aiInsights ∧
        rec2.processingError = rec.processingError ∧
        rec2.insightsError = rec.insightsError ∧
        rec2.insightsGeneratedAt = rec.insightsGeneratedAt ∧
        rec2.tenantId = rec.tenantId ∧
        rec2.dataId = rec.dataId ∧
        rec2.s3Key = rec.s3Key ∧
        rec2.timestamp = rec.timestamp ∧
        rec2.processedAt = rec.processedAt ∧
        rec2.metadata = rec.metadata ∧
        rec2.ttl = rec.ttl ∧
        rec2.insights = [entryW] ∧
        rec2.lastInsightAt = some reqW.now) ∧
    (handleEventBridge envC9 prW recW 2000).1.status = recW.status :=
  ⟨status_frame_c9.1 stW reqW insW [entryW] stW2 rfl,
   (status_frame_c9.2.1 envC9 prW recW 2000 rfl rfl).2⟩

theorem buildPR_qualityScore (data : Json) (pr : ProcessingResults)
    (h : buildProcessingResults data = .ok pr) :
    calculateQualityScore data = .ok pr.qualityScore := by
  unfold buildProcessingResults at h
  cases h1 : processData data with
  | error e => rw [h1] at h; simp [bind, Except.bind] at h
  | ok pd =>
      rw [h1] at h
      simp only [bind, Except.bind] at h
      cases h2 : jsKeys data with
      | error e => rw [h2] at h; simp [bind, Except.bind] at h
      | ok ks =>
          rw [h2] at h
          simp only [bind, Except.bind] at h
          cases h3 : calculateQualityScore data with
          | error e => rw [h3] at h; simp [bind, Except.bind] at h
          | ok q =>
              rw [h3] at h
              simp only [bind, Except.bind, pure, Except.pure, Except.ok.injEq] at h
              rw [← h]

theorem append_right_ne_empty (s t : String) (ht : t.length ≠ 0) : s ++ t ≠ "" := by
  intro h
  have hl := congrArg String.length h
  rw [String.length_append, show ("" : String).length = 0 from rfl] at hl
  omega

/-- C6: when the inference call of the on-demand path fails, the request
still completes: the returned insights text is the deterministic fallback
string, which is non-empty and spells out the record known record count and
quality score (the quality score of a pipeline-processed record is at least
60, hence nonzero and rendered numerically), and that fallback response is
appended as the newest entry of the insight history. -/
theorem inference_fallback_c6 (st : SysState) (req : ApiRequest) (ins : String)
    (hist : List InsightEntry) (st' : SysState)
    (hfail : req.inference = none)
    (hproc : ∀ r ∈ st.table, ∃ payload pr, r.processingResults = some pr ∧
      buildProcessingResults payload = .ok pr)
    (h : handleApiGateway st req = (.ok ins hist, st')) :
    ∃ pr : ProcessingResults,
      ins = fallbackResponse (some pr) (presentStr req.prompt) ∧
      ins = "Analysis completed with fallback method. " ++
        (match presentStr req.prompt with
          | some p => "Question: " ++ p
          | none => "General analysis") ++
        " - Data contains " ++ toString pr.recordCount ++
        " records with quality score of " ++ toString pr.qualityScore ++
        ". Consider reviewing the data for business opportunities and potential improvements." ∧
      ins ≠ "" ∧
      hist.getLast? = some
        { timestamp := req.now, userId := req.userId,
          prompt := (presentStr req.prompt).getD "General insights", response := ins } := by
  obtain ⟨dataId, bucket, rec, key, data, hd, hc, hf, hk, hdd, hu, h1, h2, h3⟩ :=
    handleApiGateway_ok_inversion st req ins hist st' h
  obtain ⟨payload, pr, hpr, hbuild⟩ := hproc rec (List.mem_of_find?_eq_some hf)
  have hq : calculateQualityScore payload = .ok pr.qualityScore :=
    buildPR_qualityScore payload pr hbuild
  have hqrange := calculateQualityScore_range payload pr.qualityScore hq
  have hqne : pr.qualityScore ≠ 0 := by omega
  have hins : ins = fallbackResponse (some pr) (presentStr req.prompt) := by
    rw [h1, hfail]
    simp [generateAdditionalInsights, hpr]
  refine ⟨pr, hins, ?_, ?_, ?_⟩
  · rw [hins]
    simp only [fallbackResponse, recordCountDisplay, qualityScoreDisplay,
      qualityScoreText, if_neg hqne]
    try rfl
  · rw [hins]
    unfold fallbackResponse
    apply append_right_ne_empty
    decide
  · rw [h2]
    exact appendCapped_getLast _ _

/-- C6 witness: the fallback shape instantiated on a concrete processed
record with a failing inference call. -/
theorem inference_fallback_c6_witness :
    ∃ pr : ProcessingResults,
      insW = fallbackResponse (some pr) (presentStr reqW.prompt) ∧
      insW = "Analysis completed with fallback method. " ++
        (match presentStr reqW.prompt with
          | some p => "Question: " ++ p
          | none => "General analysis") ++
        " - Data contains " ++ toString pr.recordCount ++
        " records with quality score of " ++ toString pr.qualityScore ++
        ". Consider reviewing the data for business opportunities and potential improvements." ∧
      insW ≠ "" ∧
      ([entryW] : List InsightEntry).getLast? = some
        { timestamp := reqW.now, userId := reqW.userId,
          prompt := (presentStr reqW.prompt).getD "General insights", response := insW } :=
  inference_fallback_c6 stW reqW insW [entryW] stW2 rfl
    (by
      intro r hr
      simp only [stW, List.mem_singleton] at hr
      subst hr
      exact ⟨payloadW, prW, rfl, rfl⟩)
    rfl

theorem onDemandLookup_no_prompt_error (st : SysState) (req : ApiRequest)
    (dataId : String) (prompt? : Option String) :
    (onDemandLookup st req dataId prompt?).1 ≠
      .badRequest "Prompt is too long. Maximum length is 100 characters." := by
  unfold onDemandLookup
  split
  next => simp
  next rec hf =>
    split
    next => intro h; simp only [ApiResponse.badRequest.injEq] at h; exact absurd h (by decide)
    next key hk =>
      split
      next => simp
      next data hd =>
        split
        next => simp
        next => simp

theorem onDemandRateLimited_no_prompt_error (st : SysState) (req : ApiRequest)
    (dataId : String) (prompt? : Option String) :
    (onDemandRateLimited st req dataId prompt?).1 ≠
      .badRequest "Prompt is too long. Maximum length is 100 characters." := by
  unfold onDemandRateLimited
  split
  next => simp
  next b hc => exact onDemandLookup_no_prompt_error _ req dataId prompt?

/-- C8: a present prompt longer than 100 characters is rejected with the
prompt-length validation error before any rate-limit accounting, record
lookup or inference work (the state is returned unchanged); a prompt of
length at most 100, or no prompt, is never rejected on this ground; and on a
successful query the stored entry carries the full prompt untruncated. -/
theorem prompt_validation_c8 :
    (∀ (st : SysState) (req : ApiRequest) (p dataId : String),
      req.prompt = some p → 100 < p.length → presentStr req.dataId = some dataId →
      handleApiGateway st req =
        (.badRequest "Prompt is too long. Maximum length is 100 characters.", st)) ∧
    (∀ (st : SysState) (req : ApiRequest) (p : String),
      req.prompt = some p → 100 < p.length → presentStr req.dataId = none →
      handleApiGateway st req = (.badRequest "Missing required parameter: dataId", st)) ∧
    (∀ (st : SysState) (req : ApiRequest) (p : String),
      req.prompt = some p → p.length ≤ 100 →
      (handleApiGateway st req).1 ≠
        .badRequest "Prompt is too long. Maximum length is 100 characters.") ∧
    (∀ (st : SysState) (req : ApiRequest),
      req.prompt = none →
      (handleApiGateway st req).1 ≠
        .badRequest "Prompt is too long. Maximum length is 100 characters.") ∧
    (∀ (st : SysState) (req : ApiRequest) (p ins : String) (hist : List InsightEntry)
        (st' : SysState),
      handleApiGateway st req = (.ok ins hist, st') → req.prompt = some p → p ≠ "" →
      hist.getLast? = some
        { timestamp := req.now, userId := req.userId, prompt := p,
          response := ins }) := by
  refine ⟨?_, ?_, ?_, ?_, ?_⟩
  · intro st req p dataId hp hlen hd
    have hpne : p ≠ "" := by
      intro h0
      rw [h0] at hlen
      exact absurd hlen (by decide)
    have hps : presentStr req.prompt = some p := by simp [presentStr, hp, hpne]
    simp [handleApiGateway, hd, hps, hlen]
  · intro st req p hp hlen hd
    simp [handleApiGateway, hd]
  · intro st req p hp hlen
    unfold handleApiGateway
    split
    next => intro h; simp only [ApiResponse.badRequest.injEq] at h; exact absurd h (by decide)
    next dataId hd =>
      split
      next p2 hp2 =>
        have hp2' : p2 = p := by
          rw [hp] at hp2
          simp only [presentStr] at hp2
          split at hp2 <;> simp_all
        subst hp2'
        split
        next hl => omega
        next hl => exact onDemandRateLimited_no_prompt_error st req dataId (some p2)
      next hp2 => exact onDemandRateLimited_no_prompt_error st req dataId none
  · intro st req hp
    unfold handleApiGateway
    split
    next => intro h; simp only [ApiResponse.badRequest.injEq] at h; exact absurd h (by decide)
    next dataId hd =>
      split
      next p2 hp2 => rw [hp] at hp2; simp [presentStr] at hp2
      next hp2 => exact onDemandRateLimited_no_prompt_error st req dataId none
  · intro st req p ins hist st' h hp hpne
    obtain ⟨dataId, bucket, rec, key, data, hd, hc, hf, hk, hdd, hu, h1, h2, h3⟩ :=
      handleApiGateway_ok_inversion st req ins hist st' h
    rw [h2, appendCapped_getLast]
    have hps : presentStr req.prompt = some p := by simp [presentStr, hp, hpne]
    rw [hps]
    rfl

/-- C8 witness: the validation facts instantiated at a concrete 101-character
prompt and concrete valid requests. -/
theorem prompt_validation_c8_witness :
    handleApiGateway stW { reqW with prompt := some longPromptW } =
      (.badRequest "Prompt is too long. Maximum length is 100 characters.", stW) ∧
    (handleApiGateway stW reqW).1 ≠
      .badRequest "Prompt is too long. Maximum length is 100 characters." ∧
    (handleApiGateway stW { reqW with prompt := none }).1 ≠
      .badRequest "Prompt is too long. Maximum length is 100 characters." ∧
    ([entryW] : List InsightEntry).getLast? = some
      { timestamp := reqW.now, userId := reqW.userId, prompt := "total?",
        response := insW } :=
  ⟨prompt_validation_c8.1 stW { reqW with prompt := some longPromptW } longPromptW "d1"
     rfl (by decide) rfl,
   prompt_validation_c8.2.2.1 stW reqW "total?" rfl (by decide),
   prompt_validation_c8.2.2.2.1 stW { reqW with prompt := none } rfl,
   prompt_validation_c8.2.2.2.2 stW reqW "total?" insW [entryW] stW2 rfl rfl
     (by decide)⟩

theorem secondsUntilReset_bounds (r now : Nat) (h1 : now < r) (h2 : r ≤ now + 60000) :
    1 ≤ (r - now + 999) / 1000 ∧ (r - now + 999) / 1000 ≤ 60 := by
  constructor
  · have h3 : 1000 ≤ r - now + 999 := by omega
    calc 1 = 1000 / 1000 := by norm_num
      _ ≤ (r - now + 999) / 1000 := Nat.div_le_div_right h3
  · calc (r - now + 999) / 1000 ≤ 60999 / 1000 := Nat.div_le_div_right (by omega)
      _ = 60 := by norm_num

theorem lookup_mem_rateStore {store : List (String × RateBucket)} {u : String}
    {b : RateBucket} (h : store.lookup u = some b) : (u, b) ∈ store := by
  induction store with
  | nil => simp [List.lookup] at h
  | cons a as ih =>
      obtain ⟨k, v⟩ := a
      rw [List.lookup] at h
      by_cases hk : u = k
      · subst hk
        simp at h
        subst h
        exact List.mem_cons_self _ _
      · have hne : (u == k) = false := beq_eq_false_iff_ne.mpr hk
        rw [hne] at h
        exact List.mem_cons_of_mem _ (ih h)

theorem mem_storeSet {store : List (String × RateBucket)} {u : String} {b : RateBucket}
    {u' : String} {b' : RateBucket} (h : (u', b') ∈ storeSet store u b) :
    (u', b') ∈ store ∨ b' = b := by
  induction store with
  | nil =>
      unfold storeSet at h
      simp at h
      exact Or.inr h.2
  | cons a as ih =>
      obtain ⟨k, v⟩ := a
      unfold storeSet at h
      split at h
      · rcases List.mem_cons.mp h with h | h
        · exact Or.inr (congrArg Prod.snd h)
        · exact Or.inl (List.mem_cons_of_mem _ h)
      · rcases List.mem_cons.mp h with h | h
        · exact Or.inl (h ▸ List.mem_cons_self _ _)
        · rcases ih h with h | h
          · exact Or.inl (List.mem_cons_of_mem _ h)
          · exact Or.inr h

theorem checkRateLimit_expired_b (b : RateBucket) (now : Nat) (h : b.resetTime ≤ now) :
    checkRateLimit (some b) now = (.allowed, ⟨1, now + 60000⟩) := by
  obtain ⟨k, r⟩ := b
  exact checkRateLimit_expired k r now h

theorem checkRateLimit_incr_b (b : RateBucket) (now : Nat) (h1 : now < b.resetTime)
    (h2 : b.count < 6) :
    checkRateLimit (some b) now = (.allowed, { b with count := b.count + 1 }) := by
  obtain ⟨k, r⟩ := b
  exact checkRateLimit_incr k r now h1 h2

theorem checkRateLimit_reject_b (b : RateBucket) (now : Nat) (h1 : now < b.resetTime)
    (h2 : 6 ≤ b.count) :
    checkRateLimit (some b) now = (.rejected ((b.resetTime - now + 999) / 1000), b) := by
  obtain ⟨k, r⟩ := b
  exact checkRateLimit_reject k r now h1 h2

theorem checkRateLimit_allowed_le (bucket? : Option RateBucket) (now : Nat) (b : RateBucket)
    (h : checkRateLimit bucket? now = (.allowed, b))
    (hb : ∀ b0, bucket? = some b0 → b0.resetTime ≤ now + 60000) :
    b.resetTime ≤ now + 60000 := by
  match bucket? with
  | none =>
      rw [checkRateLimit_fresh] at h
      injection h with hfst hsnd
      rw [← hsnd]
  | some b0 =>
      by_cases h1 : now < b0.resetTime
      · by_cases h2 : b0.count < 6
        · rw [checkRateLimit_incr_b b0 now h1 h2] at h
          injection h with hfst hsnd
          rw [← hsnd]
          exact hb b0 rfl
        · rw [checkRateLimit_reject_b b0 now h1 (by omega)] at h
          exact absurd (congrArg Prod.fst h) (by simp)
      · rw [checkRateLimit_expired_b b0 now (by omega)] at h
        injection h with hfst hsnd
        rw [← hsnd]

theorem checkRateLimit_rejected_inversion (bucket? : Option RateBucket) (now s : Nat)
    (b' : RateBucket) (h : checkRateLimit bucket? now = (.rejected s, b')) :
    ∃ b, bucket? = some b ∧ now < b.resetTime ∧ 6 ≤ b.count ∧
      s = (b.resetTime - now + 999) / 1000 := by
  match bucket? with
  | none =>
      rw [checkRateLimit_fresh] at h
      exact absurd (congrArg Prod.fst h) (by simp)
  | some b0 =>
      by_cases h1 : now < b0.resetTime
      · by_cases h2 : b0.count < 6
        · rw [checkRateLimit_incr_b b0 now h1 h2] at h
          exact absurd (congrArg Prod.fst h) (by simp)
        · rw [checkRateLimit_reject_b b0 now h1 (by omega)] at h
          have hfst := congrArg Prod.fst h
          simp only [RateDecision.rejected.injEq] at hfst
          exact ⟨b0, rfl, h1, by omega, hfst.symm⟩
      · rw [checkRateLimit_expired_b b0 now (by omega)] at h
        exact absurd (congrArg Prod.fst h) (by simp)

theorem onDemandLookup_no_rateLimited (st : SysState) (req : ApiRequest)
    (dataId : String) (prompt? : Option String) (s : Nat) :
    (onDemandLookup st req dataId prompt?).1 ≠ .rateLimited s := by
  unfold onDemandLookup
  split
  next => simp
  next rec hf =>
    split
    next => simp
    next key hk =>
      split
      next => simp
      next data hd =>
        split
        next => simp
        next => simp

theorem handleApiGateway_rateLimited_inversion (st : SysState) (req : ApiRequest) (s : Nat)
    (h : (handleApiGateway st req).1 = .rateLimited s) :
    ∃ b, st.rateStore.lookup req.userId = some b ∧ req.now < b.resetTime ∧
      6 ≤ b.count ∧ s = (b.resetTime - req.now + 999) / 1000 := by
  unfold handleApiGateway at h
  split at h
  next => simp at h
  next dataId hd =>
    split at h
    next p hp =>
      split at h
      next => simp at h
      next =>
        unfold onDemandRateLimited at h
        split at h
        next s' b' hc =>
          simp only [ApiResponse.rateLimited.injEq] at h
          subst h
          exact checkRateLimit_rejected_inversion _ _ _ _ hc
        next b hc => exact absurd h (onDemandLookup_no_rateLimited _ req dataId (some p) s)
    next hp =>
      unfold onDemandRateLimited at h
      split at h
      next s' b' hc =>
        simp only [ApiResponse.rateLimited.injEq] at h
        subst h
        exact checkRateLimit_rejected_inversion _ _ _ _ hc
      next b hc => exact absurd h (onDemandLookup_no_rateLimited _ req dataId none s)

theorem onDemandLookup_rateStore (st : SysState) (req : ApiRequest) (dataId : String)
    (prompt? : Option String) :
    (onDemandLookup st req dataId prompt?).2.rateStore = st.rateStore := by
  rcases onDemandLookup_state st req dataId prompt? with he | ⟨rec, ins, hm, he⟩ <;>
    rw [he]

theorem handleApiGateway_rateStore (st : SysState) (req : ApiRequest) :
    (handleApiGateway st req).2.rateStore = st.rateStore ∨
    ∃ b, checkRateLimit (st.rateStore.lookup req.userId) req.now = (.allowed, b) ∧
      (handleApiGateway st req).2.rateStore = storeSet st.rateStore req.userId b := by
  unfold handleApiGateway
  split
  next => left; rfl
  next dataId hd =>
    split
    next p hp =>
      split
      next => left; rfl
      next =>
        unfold onDemandRateLimited
        split
        next => left; rfl
        next b hc =>
          right
          exact ⟨b, hc, by rw [onDemandLookup_rateStore]⟩
    next hp =>
      unfold onDemandRateLimited
      split
      next => left; rfl
      next b hc =>
        right
        exact ⟨b, hc, by rw [onDemandLookup_rateStore]⟩

/-- C1: the on-demand rate limiter is a fixed window per userId with
maxCalls = 6 and windowMs = 60000.  A first call (no bucket), or a call at or
after windowResetAt, creates/resets the bucket to count 1 with
windowResetAt = now + windowMs and succeeds; within the window a call succeeds
iff count < 6 (incrementing); otherwise it is rejected with
secondsUntilReset = ceil((windowResetAt - now)/1000), which lies in [1, 60]
for every bucket the handler can have stored under monotone request times;
six consecutive calls within one window succeed and the seventh is
rejected. -/
theorem rate_limiter_c1 :
    (∀ now : Nat, checkRateLimit none now = (.allowed, ⟨1, now + 60000⟩)) ∧
    (∀ k r now : Nat, r ≤ now →
      checkRateLimit (some ⟨k, r⟩) now = (.allowed, ⟨1, now + 60000⟩)) ∧
    (∀ k r now : Nat, now < r → k < 6 →
      checkRateLimit (some ⟨k, r⟩) now = (.allowed, ⟨k + 1, r⟩)) ∧
    (∀ k r now : Nat, now < r → 6 ≤ k →
      checkRateLimit (some ⟨k, r⟩) now = (.rejected ((r - now + 999) / 1000), ⟨k, r⟩)) ∧
    (∀ r now : Nat, now < r → r ≤ now + 60000 →
      1 ≤ (r - now + 999) / 1000 ∧ (r - now + 999) / 1000 ≤ 60) ∧
    (∀ t1 t2 t3 t4 t5 t6 t7 : Nat,
      t1 ≤ t2 → t2 ≤ t3 → t3 ≤ t4 → t4 ≤ t5 → t5 ≤ t6 → t6 ≤ t7 → t7 < t1 + 60000 →
      (runCalls none [t1, t2, t3, t4, t5, t6, t7]).1 =
        [.allowed, .allowed, .allowed, .allowed, .allowed, .allowed,
         .rejected ((t1 + 60000 - t7 + 999) / 1000)]) ∧
    (∀ (st : SysState) (req : ApiRequest) (t0 : Nat),
      (∀ u b, (u, b) ∈ st.rateStore → b.resetTime ≤ t0 + 60000) → t0 ≤ req.now →
      ∀ u b, (u, b) ∈ (handleApiGateway st req).2.rateStore →
        b.resetTime ≤ req.now + 60000) ∧
    (∀ (st : SysState) (req : ApiRequest) (t0 s : Nat),
      (∀ u b, (u, b) ∈ st.rateStore → b.resetTime ≤ t0 + 60000) → t0 ≤ req.now →
      (handleApiGateway st req).1 = .rateLimited s → 1 ≤ s ∧ s ≤ 60) := by
  refine ⟨checkRateLimit_fresh, checkRateLimit_expired, checkRateLimit_incr,
    checkRateLimit_reject, secondsUntilReset_bounds, ?_, ?_, ?_⟩
  · intro t1 t2 t3 t4 t5 t6 t7 h12 h23 h34 h45 h56 h67 hw
    simp only [runCalls, checkRateLimit_fresh,
      checkRateLimit_incr 1 (t1 + 60000) t2 (by omega) (by norm_num),
      checkRateLimit_incr 2 (t1 + 60000) t3 (by omega) (by norm_num),
      checkRateLimit_incr 3 (t1 + 60000) t4 (by omega) (by norm_num),
      checkRateLimit_incr 4 (t1 + 60000) t5 (by omega) (by norm_num),
      checkRateLimit_incr 5 (t1 + 60000) t6 (by omega) (by norm_num),
      checkRateLimit_reject 6 (t1 + 60000) t7 (by omega) (by norm_num)]
  · intro st req t0 hb ht u b hm
    rcases handleApiGateway_rateStore st req with he | ⟨b0, hc, he⟩
    · rw [he] at hm
      exact le_trans (hb u b hm) (by omega)
    · rw [he] at hm
      rcases mem_storeSet hm with hm | hEq
      · exact le_trans (hb u b hm) (by omega)
      · subst hEq
        apply checkRateLimit_allowed_le _ _ _ hc
        intro b1 hlk
        exact le_trans (hb req.userId b1 (lookup_mem_rateStore hlk)) (by omega)
  · intro st req t0 s hb ht h
    obtain ⟨b, hlk, hlt, hcnt, hs⟩ := handleApiGateway_rateLimited_inversion st req s h
    have hble : b.resetTime ≤ req.now + 60000 :=
      le_trans (hb req.userId b (lookup_mem_rateStore hlk)) (by omega)
    subst hs
    exact secondsUntilReset_bounds _ _ hlt hble

/-- C1 witness: the rate-limiter facts instantiated at concrete buckets,
times and a concrete store. -/
theorem rate_limiter_c1_witness :
    checkRateLimit none 5 = (.allowed, ⟨1, 5 + 60000⟩) ∧
    checkRateLimit (some ⟨6, 60000⟩) 30000 =
      (.rejected ((60000 - 30000 + 999) / 1000), ⟨6, 60000⟩) ∧
    (1 ≤ (60000 - 30000 + 999) / 1000 ∧ (60000 - 30000 + 999) / 1000 ≤ 60) ∧
    (runCalls none [0, 1, 2, 3, 4, 5, 6]).1 =
      [.allowed, .allowed, .allowed, .allowed, .allowed, .allowed,
       .rejected ((0 + 60000 - 6 + 999) / 1000)] ∧
    (1 ≤ (50000 - 30000 + 999) / 1000 ∧ (50000 - 30000 + 999) / 1000 ≤ 60) :=
  ⟨rate_limiter_c1.1 5,
   rate_limiter_c1.2.2.2.1 6 60000 30000 (by norm_num) (by norm_num),
   rate_limiter_c1.2.2.2.2.1 60000 30000 (by norm_num) (by norm_num),
   rate_limiter_c1.2.2.2.2.2.1 0 1 2 3 4 5 6 (by norm_num) (by norm_num) (by norm_num)
     (by norm_num) (by norm_num) (by norm_num) (by norm_num),
   rate_limiter_c1.2.2.2.2.2.2.2 stRateW reqRateW 0 ((50000 - 30000 + 999) / 1000)
     (by
       intro u b hm
       simp only [stRateW, List.mem_singleton] at hm
       injection hm with h1 h2
       rw [h2]
       norm_num)
     (by norm_num) rfl⟩

end CortexAI
